import Mathlib

/-!
Verification of the per-folder PDF merge pipeline (`src/merge_pdfs.py`).

The remote store (Google Drive) is modelled as a list of file records plus a
fresh-id counter; every mutating call (folder creation, upload, trash) is
recorded in an explicit trace so that frame and ordering properties can be
stated.  The staged local workspace is an association list from paths to
local files (most recent write first), because the staged path of a download
is a function of the item's display name only.  The external collaborators
(Ghostscript, the byte size pypdf produces when writing a page list) are
oracles supplied in an `Env` record, as the spec places them out of scope.
Calendar time (`datetime.now`) enters only through the run's date string,
which is passed as a parameter.
-/

set_option maxRecDepth 4000

namespace MergePdfs

/-- A local PDF file: whether `PdfReader` can open it, its pages, its byte
size (`os.path.getsize`). -/
structure LocalFile where
  readable : Bool
  pages : List Nat
  size : Nat
deriving DecidableEq, Repr, Inhabited

/-- A record in the remote store, as returned by `files().list`:
id, name, parent, mimeType, createdTime, size, trashed flag, and the bytes
`download_file` would fetch for it. -/
structure DriveFile where
  id : Nat
  name : String
  parent : Nat
  mimeType : String
  createdTime : String
  size : Nat
  trashed : Bool
  content : LocalFile
deriving DecidableEq, Repr, Inhabited

/-- The remote store: the file records plus a counter from which fresh ids
are drawn. -/
structure DriveState where
  files : List DriveFile
  nextId : Nat
deriving DecidableEq, Repr, Inhabited

/-- The environment-supplied configuration knobs of the script. -/
structure Config where
  MIN_PDFS : Nat
  DRY_RUN : Bool
  COMPILED_SUBFOLDER_NAME : String
  PDF_COMPRESS : Bool
  PDF_QUALITY : String
deriving DecidableEq, Repr

/-- External collaborators: `gs lvl f` is the file Ghostscript writes (at
`-dPDFSETTINGS=lvl`) for input `f`, if it terminates successfully and writes
an output; `renderSize pages` is the byte size of the file `PdfWriter.write`
produces for `pages`. -/
structure Env where
  gs : String → LocalFile → Option LocalFile
  renderSize : List Nat → Nat

/-- Trace of mutating remote-store calls issued by a run. -/
inductive Mutation where
  | createFolder (parent : Nat) (name : String) (newId : Nat)
  | upload (parent : Nat) (name : String) (newId : Nat) (file : LocalFile)
  | trash (fileId : Nat)
deriving DecidableEq, Repr

/-- The dict `upload_pdf` returns: `{id, webViewLink}`. -/
structure UploadResult where
  id : String
  webViewLink : String
deriving DecidableEq, Repr

/-- Errors a folder run can raise: a remote-store access failure
(e.g. `files().get` on an unknown id) or the merge-empty `RuntimeError`. -/
inductive PErr where
  | remoteAccess
  | mergeEmpty
deriving DecidableEq, Repr

def pdfMime : String := "application/pdf"

def folderMime : String := "application/vnd.google-apps.folder"

/-- `get_folder_name`: `files().get(fileId=folder_id, fields="name")`;
`none` models the HTTP error raised for an unknown id. -/
def get_folder_name (st : DriveState) (folderId : Nat) : Option String :=
  (st.files.find? (fun f => f.id == folderId)).map (fun f => f.name)

/-- `list_pdfs_in_folder`: PDFs directly parented by the folder, not
trashed.  The source loops over `nextPageToken`, so the whole listing is
returned, in store order. -/
def list_pdfs_in_folder (st : DriveState) (folderId : Nat) : List DriveFile :=
  st.files.filter (fun f => f.parent == folderId && f.mimeType == pdfMime && !f.trashed)

/-- `ensure_compiled_subfolder`: look for an active child folder with the
configured name (`pageSize=1`: first match wins); otherwise create it, or in
dry-run mode return a placeholder id (the source returns the sentinel string
`"dry_run_subfolder"`; the placeholder is never used to mutate anything). -/
def ensure_compiled_subfolder (cfg : Config) (st : DriveState) (parentFolderId : Nat) :
    Nat × DriveState × List Mutation :=
  let found := st.files.filter (fun f =>
    f.parent == parentFolderId && f.mimeType == folderMime &&
    f.name == cfg.COMPILED_SUBFOLDER_NAME && !f.trashed)
  match found.head? with
  | some f => (f.id, st, [])
  | none =>
    if cfg.DRY_RUN then
      (st.nextId, st, [])
    else
      let newId := st.nextId
      let newFolder : DriveFile :=
        { id := newId, name := cfg.COMPILED_SUBFOLDER_NAME, parent := parentFolderId,
          mimeType := folderMime, createdTime := "", size := 0, trashed := false,
          content := default }
      (newId, { files := st.files ++ [newFolder], nextId := newId + 1 },
       [Mutation.createFolder parentFolderId cfg.COMPILED_SUBFOLDER_NAME newId])

/-- The staged local workspace: paths mapped to files, most recent write
first, so a later download to the same path shadows an earlier one. -/
abbrev LocalFS := List (String × LocalFile)

/-- Writing a local file (a download or `PdfWriter.write`) overwrites any
previous file at the same path. -/
def fsWrite (fs : LocalFS) (path : String) (file : LocalFile) : LocalFS :=
  (path, file) :: fs

/-- Opening a local path reads the most recent write to it. -/
def fsRead (fs : LocalFS) (path : String) : Option LocalFile :=
  fs.lookup path

/-- `dest = os.path.join(tmp, f["name"])`: the staged destination is a
function of the display name only. -/
def stagedPath (tmp : String) (name : String) : String :=
  tmp ++ "/" ++ name

/-- The download loop of `process_folder` step 5: for each listed item in
order, `download_file(drive, f["id"], dest)` writes the item's bytes at
`stagedPath` and appends `dest` to `local_paths`.  The content fetched for
`f["id"]` is the snapshot `f.content`, since nothing mutates the store
between the listing and the downloads. -/
def stage_downloads (tmp : String) (pdfs : List DriveFile) : LocalFS × List String :=
  pdfs.foldl
    (fun acc f =>
      (fsWrite acc.1 (stagedPath tmp f.name) f.content, acc.2 ++ [stagedPath tmp f.name]))
    ([], [])

/-- `PdfReader(p)` then iterating `reader.pages`: `none` when the open or
parse raises (missing, corrupt or password-protected file). -/
def readPdf (fs : LocalFS) (path : String) : Option (List Nat) :=
  match fsRead fs path with
  | some file => if file.readable then some file.pages else none
  | none => none

/-- The page-collection loop of `merge_local_pdfs`: append the pages of
every readable input in order, skipping inputs whose open or parse
raises. -/
def collectPages (fs : LocalFS) (paths : List String) : List Nat :=
  paths.foldl
    (fun acc p =>
      match readPdf fs p with
      | some pgs => acc ++ pgs
      | none => acc) []

/-- `merge_local_pdfs`: collect the readable pages in order and raise when
no page at all was collected. -/
def merge_local_pdfs (fs : LocalFS) (paths : List String) : Except PErr (List Nat) :=
  let pages := collectPages fs paths
  if pages.length = 0 then Except.error PErr.mergeEmpty else Except.ok pages

/-- Python's `str.lower()` on the (ASCII) quality tier names. -/
def strToLower (s : String) : String :=
  ⟨s.data.map Char.toLower⟩

/-- `settings_map.get(quality, "/ebook")` after lower-casing: the
`-dPDFSETTINGS` level, any unrecognized tier falling back to `/ebook`. -/
def settings_level (quality : String) : String :=
  let q := strToLower quality
  if q == "screen" then "/screen"
  else if q == "ebook" then "/ebook"
  else if q == "printer" then "/printer"
  else if q == "prepress" then "/prepress"
  else if q == "default" then "/default"
  else "/ebook"

/-- `compress_pdf_gs`: run Ghostscript; succeed only when it ran without
error and wrote a non-empty output file (the source checks
`os.path.exists(output_path) and os.path.getsize(output_path) > 0`). -/
def compress_pdf_gs (env : Env) (input : LocalFile) (quality : String) : Option LocalFile :=
  match env.gs (settings_level quality) input with
  | some out => if out.size > 0 then some out else none
  | none => none

/-- The compiled output name, `f"Compilado de {date_str}.pdf"`. -/
def compiledName (dateStr : String) : String :=
  "Compilado de " ++ dateStr ++ ".pdf"

/-- `drive.files().update(fileId=..., body={"trashed": True})`. -/
def trash_one (st : DriveState) (fileId : Nat) : DriveState :=
  { st with files := st.files.map (fun f => if f.id == fileId then { f with trashed := true } else f) }

/-- The query of `trash_existing_compiled_for_today`: active items in the
compiled subfolder whose name equals the day's compiled name (the query has
no mimeType clause). -/
def dedup_matches (st : DriveState) (compiledFolderId : Nat) (name : String) : List DriveFile :=
  st.files.filter (fun f => f.parent == compiledFolderId && f.name == name && !f.trashed)

/-- `trash_existing_compiled_for_today`: list the day's matches — with
`pageSize=10` and no pagination loop, so only the first ten are ever seen —
and trash each of them.  The caller guards with `DRY_RUN`, not this
function. -/
def trash_existing_compiled_for_today (st : DriveState) (compiledFolderId : Nat)
    (dateStr : String) : DriveState × List Mutation :=
  let found := (dedup_matches st compiledFolderId (compiledName dateStr)).take 10
  found.foldl
    (fun acc f => (trash_one acc.1 f.id, acc.2 ++ [Mutation.trash f.id]))
    (st, [])

/-- `upload_pdf`: in dry-run mode log and return the placeholder dict;
otherwise create the file under the folder and return its id and link. -/
def upload_pdf (cfg : Config) (st : DriveState) (folderId : Nat) (file : LocalFile)
    (name : String) : UploadResult × DriveState × List Mutation :=
  if cfg.DRY_RUN then
    ({ id := "dry_run", webViewLink := "dry_run" }, st, [])
  else
    let newId := st.nextId
    let newFile : DriveFile :=
      { id := newId, name := name, parent := folderId, mimeType := pdfMime,
        createdTime := "", size := file.size, trashed := false, content := file }
    ({ id := toString newId, webViewLink := "link/" ++ toString newId },
     { files := st.files ++ [newFile], nextId := newId + 1 },
     [Mutation.upload folderId name newId file])

/-- `move_to_trash`: a dry-run no-op, otherwise the trash update. -/
def move_to_trash (cfg : Config) (st : DriveState) (fileId : Nat) :
    DriveState × List Mutation :=
  if cfg.DRY_RUN then (st, [])
  else (trash_one st fileId, [Mutation.trash fileId])

/-- Lexicographic code-point comparison of character lists, Python's string
order. -/
def charsLe : List Char → List Char → Bool
  | [], _ => true
  | _ :: _, [] => false
  | a :: as, b :: bs =>
    if a < b then true
    else if a = b then charsLe as bs
    else false

/-- Python's `<=` on strings: lexicographic by code point. -/
def strLe (a b : String) : Bool :=
  charsLe a.data b.data

/-- The sort key comparison of `pdfs.sort(key=lambda f: f.get("createdTime", ""))`. -/
def createdLe (a b : DriveFile) : Bool :=
  strLe a.createdTime b.createdTime

/-- Insert `x` into `l` before the first element that `x` sorts weakly
below; elements skipped over are strictly below `x`'s key, so equal keys
keep their relative order. -/
def insertSorted (x : DriveFile) : List DriveFile → List DriveFile
  | [] => [x]
  | y :: ys => if createdLe x y then x :: y :: ys else y :: insertSorted x ys

/-- Step 3 of `process_folder`: Python's `list.sort` is a stable ascending
sort by the `createdTime` key; it is modelled by stable insertion sort,
which produces the identical ordering (the unique sorted, stable
permutation). -/
def sortPdfs : List DriveFile → List DriveFile
  | [] => []
  | x :: xs => insertSorted x (sortPdfs xs)

instance instDecEqExcept {ε α : Type _} [DecidableEq ε] [DecidableEq α] :
    DecidableEq (Except ε α)
  | Except.ok a, Except.ok b =>
    if h : a = b then isTrue (congrArg Except.ok h)
    else isFalse (fun hh => h (Except.ok.inj hh))
  | Except.ok _, Except.error _ => isFalse (fun hh => Except.noConfusion hh)
  | Except.error _, Except.ok _ => isFalse (fun hh => Except.noConfusion hh)
  | Except.error a, Except.error b =>
    if h : a = b then isTrue (congrArg Except.error h)
    else isFalse (fun hh => h (Except.error.inj hh))

/-- What one call of `process_folder` yields: the returned value (or raised
error), the remote store afterwards, and the mutating calls issued in
order. -/
structure RunOutcome where
  result : Except PErr (Option UploadResult)
  state : DriveState
  trace : List Mutation
deriving DecidableEq, Repr

def tmpDir : String := "tmp"

/-- `process_folder`: the full folder pipeline — name lookup, listing, the
minimum-count gate, the stable sort, subfolder resolution, staged download,
local merge, same-day dedup (skipped when `DRY_RUN`), the optional
compression decision, upload, and retirement of the listed sources (the
in-place sort makes the final loop run over the sorted list). -/
def process_folder (cfg : Config) (env : Env) (dateStr : String) (st : DriveState)
    (folderId : Nat) : RunOutcome :=
  match get_folder_name st folderId with
  | none => ⟨Except.error PErr.remoteAccess, st, []⟩
  | some _folderName =>
    let pdfs0 := list_pdfs_in_folder st folderId
    if pdfs0.length < cfg.MIN_PDFS then ⟨Except.ok none, st, []⟩
    else
      let pdfs := sortPdfs pdfs0
      let ecf := ensure_compiled_subfolder cfg st folderId
      let compiledFolderId := ecf.1
      let st1 := ecf.2.1
      let staged := stage_downloads tmpDir pdfs
      let mergedName := compiledName dateStr
      match merge_local_pdfs staged.1 staged.2 with
      | Except.error e => ⟨Except.error e, st1, ecf.2.2⟩
      | Except.ok pages =>
        let mergedFile : LocalFile :=
          { readable := true, pages := pages, size := env.renderSize pages }
        let dedup :=
          if cfg.DRY_RUN then (st1, ([] : List Mutation))
          else trash_existing_compiled_for_today st1 compiledFolderId dateStr
        let finalFile :=
          if cfg.PDF_COMPRESS then
            match compress_pdf_gs env mergedFile cfg.PDF_QUALITY with
            | some comp =>
              if 100 * comp.size < 98 * mergedFile.size then comp else mergedFile
            | none => mergedFile
          else mergedFile
        let up := upload_pdf cfg dedup.1 compiledFolderId finalFile mergedName
        let retire := pdfs.foldl
          (fun acc f =>
            let m := move_to_trash cfg acc.1 f.id
            (m.1, acc.2 ++ m.2))
          (up.2.1, ([] : List Mutation))
        ⟨Except.ok (some up.1), retire.1, ecf.2.2 ++ dedup.2 ++ up.2.2 ++ retire.2⟩

/-- Outcome of the batch entry point: final store, full trace, per-folder
log (folder id with the value returned or error raised, in invocation
order), and the collected truthy results whose count the summary line
reports. -/
structure BatchOutcome where
  state : DriveState
  trace : List Mutation
  log : List (Nat × Except PErr (Option UploadResult))
  results : List UploadResult
deriving Repr

/-- One iteration of the loop in `main`: run the folder, log the outcome,
append the result when it is truthy (a returned dict), and continue
regardless of errors. -/
def batch_step (cfg : Config) (env : Env) (dateStr : String) (acc : BatchOutcome)
    (fid : Nat) : BatchOutcome :=
  let r := process_folder cfg env dateStr acc.state fid
  { state := r.state,
    trace := acc.trace ++ r.trace,
    log := acc.log ++ [(fid, r.result)],
    results := acc.results ++
      (match r.result with
       | Except.ok (some u) => [u]
       | _ => []) }

/-- `main`: iterate the configured folder ids in order, isolating per-folder
failures; the summary reports `len(results)`. -/
def batch_main (cfg : Config) (env : Env) (dateStr : String) (st : DriveState)
    (folderIds : List Nat) : BatchOutcome :=
  folderIds.foldl (batch_step cfg env dateStr) ⟨st, [], [], []⟩

/-- Membership in a well-formed remote store: ids are pairwise distinct,
below the fresh-id counter, no record is its own parent, and every parent id
is also below the counter.  Any snapshot of a real store satisfies this. -/
def DriveState.wf (st : DriveState) : Prop :=
  (st.files.map (fun f => f.id)).Nodup ∧
    ∀ f ∈ st.files, f.id < st.nextId ∧ f.parent < st.nextId ∧ f.id ≠ f.parent

instance (st : DriveState) : Decidable st.wf := by
  unfold DriveState.wf
  infer_instance

/-- Marking the listed ids as trashed: the cumulative effect of a loop of
trash updates. -/
def trashIfMem (ids : List Nat) (f : DriveFile) : DriveFile :=
  if f.id ∈ ids then { f with trashed := true } else f

/-- The files carried by the upload events of a trace. -/
def uploaded_files (tr : List Mutation) : List LocalFile :=
  tr.filterMap fun e =>
    match e with
    | Mutation.upload _ _ _ f => some f
    | _ => none

/-- Whether a mutation is an upload. -/
def isUpload : Mutation → Bool
  | Mutation.upload _ _ _ _ => true
  | _ => false

/-- Whether a mutation is a folder creation. -/
def isCreateFolder : Mutation → Bool
  | Mutation.createFolder _ _ _ => true
  | _ => false

/-- Whether a per-folder outcome is a returned upload dict (the truthy case
`if res:` of `main`). -/
def isCompiledResult : Except PErr (Option UploadResult) → Bool
  | Except.ok (some _) => true
  | _ => false

/-- The active items named `name` directly inside the compiled subfolder. -/
def countCompiledActive (st : DriveState) (compiledFolderId : Nat) (name : String) : Nat :=
  (dedup_matches st compiledFolderId name).length

/-- Test configuration: threshold 2, live mode, no compression. -/
def cfgStd : Config := ⟨2, false, "Compilados", false, "ebook"⟩

/-- Test configuration: dry-run mode. -/
def cfgDry : Config := ⟨2, true, "Compilados", false, "ebook"⟩

/-- Test configuration: compression enabled at the `screen` tier. -/
def cfgCmp : Config := ⟨2, false, "Compilados", true, "screen"⟩

/-- Test environment: Ghostscript always fails; a merged file's byte size is
one more than its page count. -/
def envStd : Env := ⟨fun _ _ => none, fun p => p.length + 1⟩

/-- Test environment: Ghostscript shrinks any input to one byte; a merged
file's byte size is a hundred times its page count plus one hundred. -/
def envCmp : Env := ⟨fun _ f => some ⟨true, f.pages, 1⟩, fun p => 100 * (p.length + 1)⟩

/-- A folder (id 1) holding two readable PDFs (ids 2, 3). -/
def stTwo : DriveState :=
  ⟨[⟨1, "F", 0, folderMime, "", 0, false, default⟩,
    ⟨2, "a.pdf", 1, pdfMime, "2024-01-01", 5, false, ⟨true, [1], 5⟩⟩,
    ⟨3, "b.pdf", 1, pdfMime, "2024-01-02", 7, false, ⟨true, [2], 7⟩⟩], 10⟩

/-- A folder (id 1) holding a single PDF: below the default threshold. -/
def stOne : DriveState :=
  ⟨[⟨1, "F", 0, folderMime, "", 0, false, default⟩,
    ⟨2, "a.pdf", 1, pdfMime, "2024-01-01", 5, false, ⟨true, [1], 5⟩⟩], 10⟩

/-- A folder (id 1) whose two PDFs are both unreadable. -/
def stAllBad : DriveState :=
  ⟨[⟨1, "F", 0, folderMime, "", 0, false, default⟩,
    ⟨2, "a.pdf", 1, pdfMime, "2024-01-01", 5, false, ⟨false, [1], 5⟩⟩,
    ⟨3, "b.pdf", 1, pdfMime, "2024-01-02", 7, false, ⟨false, [2], 7⟩⟩], 10⟩

/-- A folder (id 1) with three distinctly named PDFs of which exactly one
(id 3) is unreadable. -/
def stOneBad : DriveState :=
  ⟨[⟨1, "F", 0, folderMime, "", 0, false, default⟩,
    ⟨2, "a.pdf", 1, pdfMime, "2024-01-01", 5, false, ⟨true, [1], 5⟩⟩,
    ⟨3, "b.pdf", 1, pdfMime, "2024-01-02", 7, false, ⟨false, [2], 7⟩⟩,
    ⟨4, "c.pdf", 1, pdfMime, "2024-01-03", 9, false, ⟨true, [3], 9⟩⟩], 10⟩

/-- A folder (id 1) with two PDFs sharing the display name `x.pdf`: the
earlier one readable, the later one unreadable. -/
def stDupBad : DriveState :=
  ⟨[⟨1, "F", 0, folderMime, "", 0, false, default⟩,
    ⟨2, "x.pdf", 1, pdfMime, "2024-01-01", 5, false, ⟨true, [1], 5⟩⟩,
    ⟨3, "x.pdf", 1, pdfMime, "2024-01-02", 7, false, ⟨false, [2], 7⟩⟩], 10⟩

/-- A folder (id 1) with two readable PDFs sharing the display name
`x.pdf`. -/
def stDupTwo : DriveState :=
  ⟨[⟨1, "F", 0, folderMime, "", 0, false, default⟩,
    ⟨2, "x.pdf", 1, pdfMime, "2024-01-01", 5, false, ⟨true, [1], 5⟩⟩,
    ⟨3, "x.pdf", 1, pdfMime, "2024-01-02", 7, false, ⟨true, [2], 7⟩⟩], 10⟩

/-- A folder (id 1) with two readable PDFs, an existing `Compilados`
subfolder (id 4), and eleven active items already named
`Compilado de 2024-05-01.pdf` inside that subfolder (ids 10 to 20). -/
def stEleven : DriveState :=
  ⟨[⟨1, "F", 0, folderMime, "", 0, false, default⟩,
    ⟨2, "a.pdf", 1, pdfMime, "2024-01-01", 5, false, ⟨true, [1], 5⟩⟩,
    ⟨3, "b.pdf", 1, pdfMime, "2024-01-02", 7, false, ⟨true, [2], 7⟩⟩,
    ⟨4, "Compilados", 1, folderMime, "", 0, false, default⟩,
    ⟨10, "Compilado de 2024-05-01.pdf", 4, pdfMime, "", 1, false, ⟨true, [9], 1⟩⟩,
    ⟨11, "Compilado de 2024-05-01.pdf", 4, pdfMime, "", 1, false, ⟨true, [9], 1⟩⟩,
    ⟨12, "Compilado de 2024-05-01.pdf", 4, pdfMime, "", 1, false, ⟨true, [9], 1⟩⟩,
    ⟨13, "Compilado de 2024-05-01.pdf", 4, pdfMime, "", 1, false, ⟨true, [9], 1⟩⟩,
    ⟨14, "Compilado de 2024-05-01.pdf", 4, pdfMime, "", 1, false, ⟨true, [9], 1⟩⟩,
    ⟨15, "Compilado de 2024-05-01.pdf", 4, pdfMime, "", 1, false, ⟨true, [9], 1⟩⟩,
    ⟨16, "Compilado de 2024-05-01.pdf", 4, pdfMime, "", 1, false, ⟨true, [9], 1⟩⟩,
    ⟨17, "Compilado de 2024-05-01.pdf", 4, pdfMime, "", 1, false, ⟨true, [9], 1⟩⟩,
    ⟨18, "Compilado de 2024-05-01.pdf", 4, pdfMime, "", 1, false, ⟨true, [9], 1⟩⟩,
    ⟨19, "Compilado de 2024-05-01.pdf", 4, pdfMime, "", 1, false, ⟨true, [9], 1⟩⟩,
    ⟨20, "Compilado de 2024-05-01.pdf", 4, pdfMime, "", 1, false, ⟨true, [9], 1⟩⟩], 100⟩

end MergePdfs

namespace MergePdfs

theorem charsLe_iff : ∀ (a b : List Char), charsLe a b = true ↔ a ≤ b
  | [], b => by
    simp only [charsLe]
    exact iff_of_true trivial List.nil_le
  | a :: as, [] => by
    simp only [charsLe]
    exact iff_of_false (by simp) (fun h => absurd (List.nil_lt_cons a as) (not_lt.mpr h))
  | a :: as, b :: bs => by
    simp only [charsLe]
    rcases lt_trichotomy a b with hlt | heq | hgt
    · rw [if_pos hlt]
      exact iff_of_true rfl (le_of_lt (List.Lex.rel hlt))
    · subst heq
      rw [if_neg (lt_irrefl a), if_pos rfl]
      rw [charsLe_iff as bs]
      constructor
      · intro h
        refine not_lt.mp (fun hc => ?_)
        have hlex : List.Lex (· < ·) bs as := (List.Lex.cons_iff).mp hc
        exact absurd hlex (not_lt.mpr h)
      · intro h
        refine not_lt.mp (fun hc => ?_)
        exact absurd (List.Lex.cons hc) (not_lt.mpr h)
    · rw [if_neg (asymm hgt), if_neg (ne_of_gt hgt)]
      exact iff_of_false (by simp) (fun h => absurd (List.Lex.rel hgt) (not_lt.mpr h))

theorem strLe_iff (a b : String) : strLe a b = true ↔ a ≤ b := by
  rw [String.le_iff_toList_le]
  exact charsLe_iff a.data b.data

theorem createdLe_trans (a b c : DriveFile) (h1 : createdLe a b) (h2 : createdLe b c) :
    createdLe a c :=
  (strLe_iff _ _).mpr (le_trans ((strLe_iff _ _).mp h1) ((strLe_iff _ _).mp h2))

theorem createdLe_total (a b : DriveFile) : createdLe a b || createdLe b a := by
  rcases le_total a.createdTime b.createdTime with h | h
  · simp [createdLe, (strLe_iff _ _).mpr h]
  · simp [createdLe, (strLe_iff _ _).mpr h]

end MergePdfs

namespace MergePdfs

theorem notCreatedLe_time_ne {x y : DriveFile} (h : ¬ createdLe x y = true) :
    x.createdTime ≠ y.createdTime := by
  intro he
  apply h
  exact (strLe_iff _ _).mpr (le_of_eq he)

theorem notCreatedLe_rev {x y : DriveFile} (h : ¬ createdLe x y = true) :
    createdLe y x = true := by
  rcases (Bool.or_eq_true _ _).mp (createdLe_total x y) with h1 | h1
  · exact absurd h1 h
  · exact h1

theorem insertSorted_perm (x : DriveFile) (l : List DriveFile) :
    List.Perm (insertSorted x l) (x :: l) := by
  induction l with
  | nil => rfl
  | cons y ys ih =>
    simp only [insertSorted]
    by_cases h : createdLe x y
    · rw [if_pos h]
    · rw [if_neg h]
      exact List.Perm.trans (List.Perm.cons y ih) (List.Perm.swap x y ys)

theorem sortPdfs_perm (l : List DriveFile) : List.Perm (sortPdfs l) l := by
  induction l with
  | nil => rfl
  | cons x xs ih =>
    exact List.Perm.trans (insertSorted_perm x (sortPdfs xs)) (List.Perm.cons x ih)

theorem insertSorted_sorted (x : DriveFile) (l : List DriveFile)
    (h : l.Pairwise (fun a b => createdLe a b = true)) :
    (insertSorted x l).Pairwise (fun a b => createdLe a b = true) := by
  induction l with
  | nil => simp [insertSorted]
  | cons y ys ih =>
    simp only [insertSorted]
    by_cases hxy : createdLe x y
    · rw [if_pos hxy]
      rw [List.pairwise_cons]
      refine ⟨?_, h⟩
      intro b hb
      rcases List.mem_cons.mp hb with rfl | hb
      · exact hxy
      · exact createdLe_trans x y b hxy ((List.pairwise_cons.mp h).1 b hb)
    · rw [if_neg hxy]
      rw [List.pairwise_cons]
      constructor
      · intro b hb
        have hb2 : b ∈ x :: ys := (insertSorted_perm x ys).mem_iff.mp hb
        rcases List.mem_cons.mp hb2 with rfl | hb2
        · exact notCreatedLe_rev hxy
        · exact (List.pairwise_cons.mp h).1 b hb2
      · exact ih (List.pairwise_cons.mp h).2

theorem sortPdfs_sorted (l : List DriveFile) :
    (sortPdfs l).Pairwise (fun a b => createdLe a b = true) := by
  induction l with
  | nil => simp [sortPdfs]
  | cons x xs ih => exact insertSorted_sorted x (sortPdfs xs) ih

theorem insertSorted_filter_time (x : DriveFile) (l : List DriveFile) (t : String) :
    (insertSorted x l).filter (fun f => f.createdTime == t)
      = if x.createdTime == t then x :: l.filter (fun f => f.createdTime == t)
        else l.filter (fun f => f.createdTime == t) := by
  induction l with
  | nil =>
    by_cases px : x.createdTime == t <;> simp [insertSorted, List.filter, px]
  | cons y ys ih =>
    simp only [insertSorted]
    by_cases hxy : createdLe x y
    · rw [if_pos hxy]
      by_cases px : x.createdTime == t <;> simp [List.filter_cons, px]
    · rw [if_neg hxy]
      have hne := notCreatedLe_time_ne hxy
      by_cases px : x.createdTime == t
      · have py : (y.createdTime == t) = false := by
          rw [beq_iff_eq] at px
          rw [beq_eq_false_iff_ne]
          rw [px] at hne
          exact fun hc => hne hc.symm
        simp [List.filter_cons, py, px, ih]
      · simp only [List.filter_cons, ih, if_neg px]

theorem sortPdfs_filter_time (l : List DriveFile) (t : String) :
    (sortPdfs l).filter (fun f => f.createdTime == t)
      = l.filter (fun f => f.createdTime == t) := by
  induction l with
  | nil => rfl
  | cons x xs ih =>
    show (insertSorted x (sortPdfs xs)).filter _ = _
    rw [insertSorted_filter_time]
    by_cases px : x.createdTime == t <;>
      simp [px, ih, List.filter_cons]

end MergePdfs

namespace MergePdfs

theorem trashIfMem_compose (a : Nat) (ids : List Nat) (f : DriveFile) :
    trashIfMem ids (if f.id == a then { f with trashed := true } else f)
      = trashIfMem (a :: ids) f := by
  by_cases ha : f.id = a
  · simp [trashIfMem, ha]
  · simp only [trashIfMem, beq_iff_eq, ha, if_false, List.mem_cons]
    by_cases hm : f.id ∈ ids <;> simp [hm, ha]

theorem trashFold (files : List DriveFile) (s0 : DriveState) (e0 : List Mutation) :
    files.foldl (fun acc f => (trash_one acc.1 f.id, acc.2 ++ [Mutation.trash f.id])) (s0, e0)
      = (⟨s0.files.map (trashIfMem (files.map (fun f => f.id))), s0.nextId⟩,
         e0 ++ (files.map (fun f => f.id)).map Mutation.trash) := by
  induction files generalizing s0 e0 with
  | nil =>
    simp only [List.foldl_nil, List.map_nil, List.append_nil]
    congr 1
    cases s0 with
    | mk fl ni =>
      simp only
      congr 1
      symm
      calc List.map (trashIfMem []) fl = List.map id fl :=
            List.map_congr_left (fun g _ => by simp [trashIfMem])
        _ = fl := List.map_id fl
  | cons f rest ih =>
    rw [List.foldl_cons, ih]
    congr 1
    · simp only [trash_one, List.map_map, List.map_cons]
      congr 1
      apply List.map_congr_left
      intro g _
      exact trashIfMem_compose f.id (rest.map (fun f => f.id)) g
    · simp

theorem retireFold_not_dry (cfg : Config) (hdry : cfg.DRY_RUN = false)
    (files : List DriveFile) (s0 : DriveState) (e0 : List Mutation) :
    files.foldl (fun acc f =>
        let m := move_to_trash cfg acc.1 f.id
        (m.1, acc.2 ++ m.2)) (s0, e0)
      = (⟨s0.files.map (trashIfMem (files.map (fun f => f.id))), s0.nextId⟩,
         e0 ++ (files.map (fun f => f.id)).map Mutation.trash) := by
  have hfun : (fun (acc : DriveState × List Mutation) (f : DriveFile) =>
      let m := move_to_trash cfg acc.1 f.id
      (m.1, acc.2 ++ m.2))
      = fun acc f => (trash_one acc.1 f.id, acc.2 ++ [Mutation.trash f.id]) := by
    funext acc f
    simp [move_to_trash, hdry]
  rw [hfun, trashFold]

theorem retireFold_dry (cfg : Config) (hdry : cfg.DRY_RUN = true)
    (files : List DriveFile) (s0 : DriveState) (e0 : List Mutation) :
    files.foldl (fun acc f =>
        let m := move_to_trash cfg acc.1 f.id
        (m.1, acc.2 ++ m.2)) (s0, e0) = (s0, e0) := by
  induction files generalizing s0 e0 with
  | nil => rfl
  | cons f rest ih =>
    rw [List.foldl_cons]
    have hm : move_to_trash cfg s0 f.id = (s0, []) := by simp [move_to_trash, hdry]
    simp only [hm, List.append_nil]
    exact ih s0 e0

end MergePdfs

namespace MergePdfs

theorem trash_existing_spec (st : DriveState) (cfid : Nat) (dateStr : String) :
    trash_existing_compiled_for_today st cfid dateStr
      = (⟨st.files.map (trashIfMem
            (((dedup_matches st cfid (compiledName dateStr)).take 10).map (fun f => f.id))),
          st.nextId⟩,
         ((((dedup_matches st cfid (compiledName dateStr)).take 10).map (fun f => f.id)).map
           Mutation.trash)) := by
  unfold trash_existing_compiled_for_today
  rw [trashFold]
  simp

theorem stageAux (tmp : String) (pdfs : List DriveFile) (fs0 : LocalFS) (ps0 : List String) :
    pdfs.foldl (fun acc f =>
        (fsWrite acc.1 (stagedPath tmp f.name) f.content, acc.2 ++ [stagedPath tmp f.name]))
        (fs0, ps0)
      = ((pdfs.map (fun f => (stagedPath tmp f.name, f.content))).reverse ++ fs0,
         ps0 ++ pdfs.map (fun f => stagedPath tmp f.name)) := by
  induction pdfs generalizing fs0 ps0 with
  | nil => simp
  | cons f rest ih =>
    rw [List.foldl_cons, ih]
    simp [fsWrite]

theorem stage_spec (tmp : String) (pdfs : List DriveFile) :
    stage_downloads tmp pdfs
      = ((pdfs.map (fun f => (stagedPath tmp f.name, f.content))).reverse,
         pdfs.map (fun f => stagedPath tmp f.name)) := by
  unfold stage_downloads
  rw [stageAux]
  simp

theorem stagedPath_inj (tmp a b : String) : stagedPath tmp a = stagedPath tmp b ↔ a = b := by
  constructor
  · intro h
    unfold stagedPath at h
    have hd := congrArg String.data h
    simp only [String.data_append] at hd
    exact String.ext (List.append_cancel_left hd)
  · intro h
    rw [h]

theorem stagedPath_beq (tmp a b : String) :
    (stagedPath tmp a == stagedPath tmp b) = (a == b) := by
  by_cases h : a = b
  · simp [h]
  · have : ¬ stagedPath tmp a = stagedPath tmp b := fun hc => h ((stagedPath_inj tmp a b).mp hc)
    simp [h, this]

theorem lookup_reverse_map (tmp n : String) :
    ∀ (pdfs : List DriveFile),
    ((pdfs.map (fun f => (stagedPath tmp f.name, f.content))).reverse).lookup (stagedPath tmp n)
      = ((pdfs.filter (fun f => f.name == n)).getLast?).map (fun f => f.content)
  | [] => rfl
  | f :: rest => by
    rw [List.map_cons, List.reverse_cons, List.lookup_append,
      lookup_reverse_map tmp n rest, List.filter_cons]
    by_cases hmatch : (f.name == n) = true
    · rw [if_pos hmatch]
      have hb : (stagedPath tmp n == stagedPath tmp f.name) = true := by
        rw [stagedPath_beq]
        rw [beq_iff_eq] at hmatch ⊢
        exact hmatch.symm
      cases hlast : (rest.filter (fun f => f.name == n)).getLast? with
      | none => simp [List.getLast?_cons, hlast, List.lookup, hb]
      | some g => simp [List.getLast?_cons, hlast]
    · rw [if_neg hmatch]
      have h1 : ¬ f.name = n := by
        intro hc
        exact hmatch (by rw [hc]; exact beq_self_eq_true n)
      have hb : (stagedPath tmp n == stagedPath tmp f.name) = false := by
        rw [stagedPath_beq, beq_eq_false_iff_ne]
        exact fun hc => h1 hc.symm
      cases hlast : (rest.filter (fun f => f.name == n)).getLast? with
      | none => simp [List.lookup, hb, hlast]
      | some g => simp [hlast]

theorem lookup_stage (tmp : String) (pdfs : List DriveFile) (n : String) :
    fsRead (stage_downloads tmp pdfs).1 (stagedPath tmp n)
      = ((pdfs.filter (fun f => f.name == n)).getLast?).map (fun f => f.content) := by
  rw [stage_spec]
  exact lookup_reverse_map tmp n pdfs

theorem collectAux (fs : LocalFS) (paths : List String) (a0 : List Nat) :
    paths.foldl (fun acc p =>
        match readPdf fs p with
        | some pgs => acc ++ pgs
        | none => acc) a0
      = a0 ++ (paths.map (fun p => (readPdf fs p).getD [])).flatten := by
  induction paths generalizing a0 with
  | nil => simp
  | cons p rest ih =>
    rw [List.foldl_cons, ih]
    cases h : readPdf fs p <;> simp [h]

theorem collectPages_eq_flatten (fs : LocalFS) (paths : List String) :
    collectPages fs paths = (paths.map (fun p => (readPdf fs p).getD [])).flatten := by
  unfold collectPages
  rw [collectAux]
  rfl

end MergePdfs

namespace MergePdfs

theorem process_folder_notfound (cfg : Config) (env : Env) (d : String) (st : DriveState)
    (fid : Nat) (hname : get_folder_name st fid = none) :
    process_folder cfg env d st fid = ⟨Except.error PErr.remoteAccess, st, []⟩ := by
  simp only [process_folder, hname]

theorem process_folder_skip (cfg : Config) (env : Env) (d : String) (st : DriveState)
    (fid : Nat) (nm : String) (hname : get_folder_name st fid = some nm)
    (hgate : (list_pdfs_in_folder st fid).length < cfg.MIN_PDFS) :
    process_folder cfg env d st fid = ⟨Except.ok none, st, []⟩ := by
  simp only [process_folder, hname, if_pos hgate]

theorem process_folder_mergeError (cfg : Config) (env : Env) (d : String) (st : DriveState)
    (fid : Nat) (nm : String) (e : PErr) (hname : get_folder_name st fid = some nm)
    (hgate : ¬ (list_pdfs_in_folder st fid).length < cfg.MIN_PDFS)
    (hmerge : merge_local_pdfs (stage_downloads tmpDir (sortPdfs (list_pdfs_in_folder st fid))).1
        (stage_downloads tmpDir (sortPdfs (list_pdfs_in_folder st fid))).2 = Except.error e) :
    process_folder cfg env d st fid =
      ⟨Except.error e, (ensure_compiled_subfolder cfg st fid).2.1,
       (ensure_compiled_subfolder cfg st fid).2.2⟩ := by
  simp only [process_folder, hname, if_neg hgate, hmerge]

theorem process_folder_success_shape (cfg : Config) (env : Env) (d : String) (st : DriveState)
    (fid : Nat) (nm : String) (pages : List Nat)
    (hdry : cfg.DRY_RUN = false)
    (hname : get_folder_name st fid = some nm)
    (hgate : ¬ (list_pdfs_in_folder st fid).length < cfg.MIN_PDFS)
    (hmerge : merge_local_pdfs (stage_downloads tmpDir (sortPdfs (list_pdfs_in_folder st fid))).1
        (stage_downloads tmpDir (sortPdfs (list_pdfs_in_folder st fid))).2 = Except.ok pages) :
    process_folder cfg env d st fid =
      (let ecf := ensure_compiled_subfolder cfg st fid
       let mergedFile : LocalFile := ⟨true, pages, env.renderSize pages⟩
       let finalFile :=
         if cfg.PDF_COMPRESS then
           match compress_pdf_gs env mergedFile cfg.PDF_QUALITY with
           | some comp =>
             if 100 * comp.size < 98 * mergedFile.size then comp else mergedFile
           | none => mergedFile
         else mergedFile
       let dedupIds :=
         ((dedup_matches ecf.2.1 ecf.1 (compiledName d)).take 10).map (fun f => f.id)
       let srcIds := (sortPdfs (list_pdfs_in_folder st fid)).map (fun f => f.id)
       let upRec : DriveFile :=
         ⟨ecf.2.1.nextId, compiledName d, ecf.1, pdfMime, "", finalFile.size, false, finalFile⟩
       ⟨Except.ok (some ⟨toString ecf.2.1.nextId, "link/" ++ toString ecf.2.1.nextId⟩),
        ⟨((ecf.2.1.files.map (trashIfMem dedupIds)) ++ [upRec]).map (trashIfMem srcIds),
         ecf.2.1.nextId + 1⟩,
        ecf.2.2 ++ dedupIds.map Mutation.trash
          ++ [Mutation.upload ecf.1 (compiledName d) ecf.2.1.nextId finalFile]
          ++ srcIds.map Mutation.trash⟩) := by
  simp only [process_folder, hname, if_neg hgate, hmerge, hdry, Bool.false_eq_true, if_false,
    trash_existing_spec, upload_pdf, retireFold_not_dry cfg hdry]
  simp

end MergePdfs

namespace MergePdfs

theorem process_folder_ok_some_inv (cfg : Config) (env : Env) (d : String) (st : DriveState)
    (fid : Nat) (r : UploadResult)
    (h : (process_folder cfg env d st fid).result = Except.ok (some r)) :
    ∃ nm pages, get_folder_name st fid = some nm ∧
      ¬ (list_pdfs_in_folder st fid).length < cfg.MIN_PDFS ∧
      merge_local_pdfs (stage_downloads tmpDir (sortPdfs (list_pdfs_in_folder st fid))).1
        (stage_downloads tmpDir (sortPdfs (list_pdfs_in_folder st fid))).2 = Except.ok pages := by
  cases hn : get_folder_name st fid with
  | none =>
    rw [process_folder_notfound cfg env d st fid hn] at h
    exact absurd h (by simp)
  | some nm =>
    by_cases hg : (list_pdfs_in_folder st fid).length < cfg.MIN_PDFS
    · rw [process_folder_skip cfg env d st fid nm hn hg] at h
      exact absurd h (by simp)
    · cases hm : merge_local_pdfs (stage_downloads tmpDir (sortPdfs (list_pdfs_in_folder st fid))).1
          (stage_downloads tmpDir (sortPdfs (list_pdfs_in_folder st fid))).2 with
      | error e =>
        rw [process_folder_mergeError cfg env d st fid nm e hn hg hm] at h
        exact absurd h (by simp)
      | ok pages => exact ⟨nm, pages, rfl, hg, rfl⟩

end MergePdfs

namespace MergePdfs

theorem merge_error_is_empty (fs : LocalFS) (paths : List String) (e : PErr)
    (h : merge_local_pdfs fs paths = Except.error e) : e = PErr.mergeEmpty := by
  unfold merge_local_pdfs at h
  simp only [] at h
  split at h
  · exact (Except.error.inj h).symm
  · exact absurd h (by simp)

theorem merge_empty_of_nil (fs : LocalFS) (paths : List String)
    (h : collectPages fs paths = []) :
    merge_local_pdfs fs paths = Except.error PErr.mergeEmpty := by
  unfold merge_local_pdfs
  rw [h]
  rfl

theorem merge_ok_of_ne_nil (fs : LocalFS) (paths : List String)
    (h : collectPages fs paths ≠ []) :
    merge_local_pdfs fs paths = Except.ok (collectPages fs paths) := by
  unfold merge_local_pdfs
  rw [if_neg (by simpa [List.length_eq_zero] using h)]

theorem ensure_dry (cfg : Config) (st : DriveState) (p : Nat) (hdry : cfg.DRY_RUN = true) :
    (ensure_compiled_subfolder cfg st p).2 = (st, []) := by
  unfold ensure_compiled_subfolder
  cases h : (st.files.filter (fun f =>
      f.parent == p && f.mimeType == folderMime &&
      f.name == cfg.COMPILED_SUBFOLDER_NAME && !f.trashed)).head? with
  | some f => simp [h]
  | none => simp [h, hdry]

theorem ensure_cases (cfg : Config) (st : DriveState) (p : Nat) :
    ((ensure_compiled_subfolder cfg st p).2.1 = st ∧ (ensure_compiled_subfolder cfg st p).2.2 = [])
    ∨ ((ensure_compiled_subfolder cfg st p).1 = st.nextId
       ∧ (ensure_compiled_subfolder cfg st p).2.1
           = ⟨st.files ++ [⟨st.nextId, cfg.COMPILED_SUBFOLDER_NAME, p, folderMime, "", 0, false,
               default⟩], st.nextId + 1⟩
       ∧ (ensure_compiled_subfolder cfg st p).2.2
           = [Mutation.createFolder p cfg.COMPILED_SUBFOLDER_NAME st.nextId]) := by
  unfold ensure_compiled_subfolder
  cases h : (st.files.filter (fun f =>
      f.parent == p && f.mimeType == folderMime &&
      f.name == cfg.COMPILED_SUBFOLDER_NAME && !f.trashed)).head? with
  | some f => left; simp [h]
  | none =>
    by_cases hdry : cfg.DRY_RUN = true
    · left; simp [h, hdry]
    · right
      rw [Bool.not_eq_true] at hdry
      simp [h, hdry]

theorem process_folder_success_dry (cfg : Config) (env : Env) (d : String) (st : DriveState)
    (fid : Nat) (nm : String) (pages : List Nat)
    (hdry : cfg.DRY_RUN = true)
    (hname : get_folder_name st fid = some nm)
    (hgate : ¬ (list_pdfs_in_folder st fid).length < cfg.MIN_PDFS)
    (hmerge : merge_local_pdfs (stage_downloads tmpDir (sortPdfs (list_pdfs_in_folder st fid))).1
        (stage_downloads tmpDir (sortPdfs (list_pdfs_in_folder st fid))).2 = Except.ok pages) :
    process_folder cfg env d st fid = ⟨Except.ok (some ⟨"dry_run", "dry_run"⟩), st, []⟩ := by
  simp only [process_folder, hname, if_neg hgate, hmerge, hdry, if_true, upload_pdf,
    ensure_dry cfg st fid hdry, retireFold_dry cfg hdry]
  simp

end MergePdfs

namespace MergePdfs

theorem collect_staged (tmp : String) (pdfs : List DriveFile) :
    collectPages (stage_downloads tmp pdfs).1 (stage_downloads tmp pdfs).2
      = (pdfs.map (fun f =>
          (match (pdfs.filter (fun g => g.name == f.name)).getLast? with
           | some g => if g.content.readable then g.content.pages else []
           | none => []))).flatten := by
  rw [collectPages_eq_flatten]
  conv_lhs =>
    rw [show (stage_downloads tmp pdfs).2 = pdfs.map (fun f => stagedPath tmp f.name) from by
      rw [stage_spec]]
  rw [List.map_map]
  congr 1
  apply List.map_congr_left
  intro f hf
  show (readPdf (stage_downloads tmp pdfs).1 (stagedPath tmp f.name)).getD [] = _
  unfold readPdf
  rw [show fsRead (stage_downloads tmp pdfs).1 (stagedPath tmp f.name)
      = ((pdfs.filter (fun g => g.name == f.name)).getLast?).map (fun g => g.content) from
    lookup_stage tmp pdfs f.name]
  cases hl : (pdfs.filter (fun g => g.name == f.name)).getLast? with
  | none => simp
  | some g => by_cases hr : g.content.readable <;> simp [hr]

theorem collect_staged_nil (tmp : String) (pdfs : List DriveFile)
    (hbad : ∀ f ∈ pdfs, f.content.readable = false ∨ f.content.pages = []) :
    collectPages (stage_downloads tmp pdfs).1 (stage_downloads tmp pdfs).2 = [] := by
  rw [collect_staged]
  rw [List.flatten_eq_nil_iff]
  intro l hl
  rw [List.mem_map] at hl
  obtain ⟨f, hf, hfl⟩ := hl
  subst hfl
  cases hlast : (pdfs.filter (fun g => g.name == f.name)).getLast? with
  | none => rfl
  | some g =>
    have hg : g ∈ pdfs := List.mem_of_mem_filter (List.mem_of_getLast?_eq_some hlast)
    rcases hbad g hg with hr | hp
    · simp [hr]
    · by_cases hr : g.content.readable <;> simp [hr, hp]

theorem filter_name_nodup :
    ∀ (pdfs : List DriveFile), ((pdfs.map (fun f => f.name)).Nodup) →
    ∀ f ∈ pdfs, pdfs.filter (fun g => g.name == f.name) = [f]
  | [], _, f, hf => absurd hf (List.not_mem_nil f)
  | x :: rest, hnn, f, hf => by
    rw [List.map_cons, List.nodup_cons] at hnn
    rcases List.mem_cons.mp hf with rfl | hfr
    · rw [List.filter_cons, if_pos (by simp)]
      congr 1
      rw [List.filter_eq_nil_iff]
      intro g hg hgn
      rw [beq_iff_eq] at hgn
      exact hnn.1 (hgn ▸ List.mem_map_of_mem (fun f => f.name) hg)
    · rw [List.filter_cons, if_neg ?hx]
      case hx =>
        simp only [beq_iff_eq]
        intro hc
        exact hnn.1 (hc ▸ List.mem_map_of_mem (fun f => f.name) hfr)
      exact filter_name_nodup rest hnn.2 f hfr

theorem collect_staged_nodup (tmp : String) (pdfs : List DriveFile)
    (hnn : ((pdfs.map (fun f => f.name)).Nodup)) :
    collectPages (stage_downloads tmp pdfs).1 (stage_downloads tmp pdfs).2
      = (pdfs.map (fun f => if f.content.readable then f.content.pages else [])).flatten := by
  rw [collect_staged]
  congr 1
  apply List.map_congr_left
  intro f hf
  rw [filter_name_nodup pdfs hnn f hf]
  rfl

end MergePdfs

namespace MergePdfs

theorem uploaded_files_append (l1 l2 : List Mutation) :
    uploaded_files (l1 ++ l2) = uploaded_files l1 ++ uploaded_files l2 := by
  unfold uploaded_files
  rw [List.filterMap_append]

theorem uploaded_files_trash (ids : List Nat) :
    uploaded_files (ids.map Mutation.trash) = [] := by
  induction ids with
  | nil => rfl
  | cons i rest ih =>
    rw [List.map_cons]
    show uploaded_files ([Mutation.trash i] ++ rest.map Mutation.trash) = []
    rw [uploaded_files_append, ih]
    rfl

theorem uploaded_files_single_upload (p : Nat) (n : String) (i : Nat) (f : LocalFile) :
    uploaded_files [Mutation.upload p n i f] = [f] := rfl

theorem uploaded_files_create (p : Nat) (n : String) (i : Nat) :
    uploaded_files [Mutation.createFolder p n i] = [] := rfl

theorem batch_log_fst (cfg : Config) (env : Env) (d : String) :
    ∀ (ids : List Nat) (acc : BatchOutcome),
    ((ids.foldl (batch_step cfg env d) acc).log.map Prod.fst) = acc.log.map Prod.fst ++ ids
  | [], acc => by simp
  | fid :: rest, acc => by
    rw [List.foldl_cons, batch_log_fst cfg env d rest]
    simp [batch_step]

theorem batch_inv (cfg : Config) (env : Env) (d : String) :
    ∀ (ids : List Nat) (acc : BatchOutcome),
    acc.results.length = (acc.log.filter (fun e => isCompiledResult e.2)).length →
    (ids.foldl (batch_step cfg env d) acc).results.length
      = ((ids.foldl (batch_step cfg env d) acc).log.filter
          (fun e => isCompiledResult e.2)).length
  | [], acc, h => by simpa using h
  | fid :: rest, acc, h => by
    rw [List.foldl_cons]
    apply batch_inv cfg env d rest
    unfold batch_step
    simp only []
    rw [List.length_append, List.filter_append, List.length_append, h]
    congr 1
    cases hres : (process_folder cfg env d acc.state fid).result with
    | error e => simp [List.filter, isCompiledResult]
    | ok o =>
      cases o with
      | none => simp [List.filter, isCompiledResult]
      | some u => simp [List.filter, isCompiledResult]

end MergePdfs

namespace MergePdfs

theorem uploaded_files_ensure (cfg : Config) (st : DriveState) (p : Nat) :
    uploaded_files (ensure_compiled_subfolder cfg st p).2.2 = [] := by
  rcases ensure_cases cfg st p with ⟨_, h2⟩ | ⟨_, _, h2⟩ <;> rw [h2] <;> rfl

theorem uploaded_files_success (cfg : Config) (env : Env) (d : String) (st : DriveState)
    (fid : Nat) (nm : String) (pages : List Nat)
    (hdry : cfg.DRY_RUN = false)
    (hname : get_folder_name st fid = some nm)
    (hgate : ¬ (list_pdfs_in_folder st fid).length < cfg.MIN_PDFS)
    (hmerge : merge_local_pdfs (stage_downloads tmpDir (sortPdfs (list_pdfs_in_folder st fid))).1
        (stage_downloads tmpDir (sortPdfs (list_pdfs_in_folder st fid))).2 = Except.ok pages) :
    uploaded_files (process_folder cfg env d st fid).trace
      = [if cfg.PDF_COMPRESS then
           match compress_pdf_gs env ⟨true, pages, env.renderSize pages⟩ cfg.PDF_QUALITY with
           | some comp =>
             if 100 * comp.size < 98 * env.renderSize pages then comp
             else ⟨true, pages, env.renderSize pages⟩
           | none => ⟨true, pages, env.renderSize pages⟩
         else ⟨true, pages, env.renderSize pages⟩] := by
  rw [process_folder_success_shape cfg env d st fid nm pages hdry hname hgate hmerge]
  simp only []
  rw [uploaded_files_append, uploaded_files_append, uploaded_files_append,
    uploaded_files_ensure, uploaded_files_trash, uploaded_files_trash]
  rfl

/-- C4: for every folder whose discovered item count is strictly below the
configured minimum threshold, the pipeline performs no remote-store mutation
(the state is unchanged and the mutation trace is empty) and returns the
skipped result (`None`). -/
theorem claim_C4_below_threshold_skips (cfg : Config) (env : Env) (d : String)
    (st : DriveState) (fid : Nat) (nm : String)
    (hname : get_folder_name st fid = some nm)
    (hgate : (list_pdfs_in_folder st fid).length < cfg.MIN_PDFS) :
    process_folder cfg env d st fid = ⟨Except.ok none, st, []⟩ :=
  process_folder_skip cfg env d st fid nm hname hgate

/-- C4 witness: a folder with one PDF under threshold 2 is skipped with no
mutation. -/
theorem claim_C4_below_threshold_skips_witness :
    (get_folder_name stOne 1 = some "F"
      ∧ (list_pdfs_in_folder stOne 1).length < cfgStd.MIN_PDFS)
    ∧ process_folder cfgStd envStd "2024-05-01" stOne 1 = ⟨Except.ok none, stOne, []⟩ :=
  ⟨⟨by decide, by decide⟩,
   claim_C4_below_threshold_skips cfgStd envStd "2024-05-01" stOne 1 "F" (by decide) (by decide)⟩

/-- C5: the item sequence handed to the merge step is `sortPdfs` of the
discovery listing (by definition of `process_folder`); it is non-decreasing
in the creation timestamp, a permutation of the listing, items with equal
timestamps keep the relative order discovery returned them in (the filter at
each timestamp is unchanged), and the staged download paths handed to the
merger preserve exactly this order. -/
theorem claim_C5_merge_input_sorted_stable (pdfs : List DriveFile) :
    (sortPdfs pdfs).Pairwise (fun a b => a.createdTime ≤ b.createdTime)
    ∧ List.Perm (sortPdfs pdfs) pdfs
    ∧ (∀ t, (sortPdfs pdfs).filter (fun f => f.createdTime == t)
        = pdfs.filter (fun f => f.createdTime == t))
    ∧ ∀ tmp, (stage_downloads tmp (sortPdfs pdfs)).2
        = (sortPdfs pdfs).map (fun f => stagedPath tmp f.name) := by
  refine ⟨?_, sortPdfs_perm pdfs, fun t => sortPdfs_filter_time pdfs t, fun tmp => by
    rw [stage_spec]⟩
  exact (sortPdfs_sorted pdfs).imp (fun h => (strLe_iff _ _).mp h)

/-- C9: a dry-run folder invocation leaves the remote store untouched and
issues no mutating call, yet still returns either the skipped result, the
merge-empty error, or the synthetic placeholder upload dict
`{id: "dry_run", webViewLink: "dry_run"}` describing what it would have
done. -/
theorem claim_C9_dry_run_no_mutation (cfg : Config) (env : Env) (d : String)
    (st : DriveState) (fid : Nat) (nm : String)
    (hdry : cfg.DRY_RUN = true)
    (hname : get_folder_name st fid = some nm) :
    (process_folder cfg env d st fid).state = st
    ∧ (process_folder cfg env d st fid).trace = []
    ∧ ((process_folder cfg env d st fid).result = Except.ok none
       ∨ (process_folder cfg env d st fid).result = Except.error PErr.mergeEmpty
       ∨ (process_folder cfg env d st fid).result
           = Except.ok (some ⟨"dry_run", "dry_run"⟩)) := by
  by_cases hg : (list_pdfs_in_folder st fid).length < cfg.MIN_PDFS
  · rw [process_folder_skip cfg env d st fid nm hname hg]
    exact ⟨rfl, rfl, Or.inl rfl⟩
  · cases hm : merge_local_pdfs (stage_downloads tmpDir (sortPdfs (list_pdfs_in_folder st fid))).1
        (stage_downloads tmpDir (sortPdfs (list_pdfs_in_folder st fid))).2 with
    | error e =>
      have he := merge_error_is_empty _ _ _ hm
      subst he
      rw [process_folder_mergeError cfg env d st fid nm _ hname hg hm]
      have h2 := ensure_dry cfg st fid hdry
      refine ⟨?_, ?_, Or.inr (Or.inl rfl)⟩
      · show ((ensure_compiled_subfolder cfg st fid).2).1 = st
        rw [h2]
      · show ((ensure_compiled_subfolder cfg st fid).2).2 = []
        rw [h2]
    | ok pages =>
      rw [process_folder_success_dry cfg env d st fid nm pages hdry hname hg hm]
      exact ⟨rfl, rfl, Or.inr (Or.inr rfl)⟩

/-- C9 witness: a dry run over a two-PDF folder mutates nothing and returns
the placeholder. -/
theorem claim_C9_dry_run_no_mutation_witness :
    (cfgDry.DRY_RUN = true ∧ get_folder_name stTwo 1 = some "F")
    ∧ ((process_folder cfgDry envStd "2024-05-01" stTwo 1).state = stTwo
      ∧ (process_folder cfgDry envStd "2024-05-01" stTwo 1).trace = []
      ∧ ((process_folder cfgDry envStd "2024-05-01" stTwo 1).result = Except.ok none
        ∨ (process_folder cfgDry envStd "2024-05-01" stTwo 1).result
            = Except.error PErr.mergeEmpty
        ∨ (process_folder cfgDry envStd "2024-05-01" stTwo 1).result
            = Except.ok (some ⟨"dry_run", "dry_run"⟩))) :=
  ⟨⟨by decide, by decide⟩,
   claim_C9_dry_run_no_mutation cfgDry envStd "2024-05-01" stTwo 1 "F" (by decide) (by decide)⟩

/-- C3: when no discovered input yields any page (each is unreadable or has
no pages), the merge step fails with the merge-empty error, the folder run
terminates with that failure, and the run performs neither an upload nor any
trashing — every mutation in its trace is at most the lazy subfolder
creation, and every pre-existing record survives unchanged. -/
theorem claim_C3_all_unreadable_aborts (cfg : Config) (env : Env) (d : String)
    (st : DriveState) (fid : Nat) (nm : String)
    (hname : get_folder_name st fid = some nm)
    (hgate : ¬ (list_pdfs_in_folder st fid).length < cfg.MIN_PDFS)
    (hbad : ∀ f ∈ list_pdfs_in_folder st fid,
        f.content.readable = false ∨ f.content.pages = []) :
    (process_folder cfg env d st fid).result = Except.error PErr.mergeEmpty
    ∧ (∀ e ∈ (process_folder cfg env d st fid).trace, isCreateFolder e = true)
    ∧ st.files.Sublist (process_folder cfg env d st fid).state.files := by
  have hbad2 : ∀ f ∈ sortPdfs (list_pdfs_in_folder st fid),
      f.content.readable = false ∨ f.content.pages = [] :=
    fun f hf => hbad f ((sortPdfs_perm _).mem_iff.mp hf)
  have hnil := collect_staged_nil tmpDir (sortPdfs (list_pdfs_in_folder st fid)) hbad2
  have hm := merge_empty_of_nil _ _ hnil
  rw [process_folder_mergeError cfg env d st fid nm _ hname hgate hm]
  rcases ensure_cases cfg st fid with ⟨h1, h2⟩ | ⟨_, h1, h2⟩
  · refine ⟨rfl, ?_, ?_⟩
    · rw [h2]
      intro e he
      exact absurd he (List.not_mem_nil e)
    · rw [h1]
  · refine ⟨rfl, ?_, ?_⟩
    · rw [h2]
      intro e he
      rw [List.mem_singleton] at he
      subst he
      rfl
    · rw [h1]
      exact List.sublist_append_left _ _

/-- C3 witness: a two-PDF folder whose inputs are both unreadable fails with
the merge-empty error and neither uploads nor trashes. -/
theorem claim_C3_all_unreadable_aborts_witness :
    (get_folder_name stAllBad 1 = some "F"
      ∧ ¬ (list_pdfs_in_folder stAllBad 1).length < cfgStd.MIN_PDFS
      ∧ (∀ f ∈ list_pdfs_in_folder stAllBad 1,
          f.content.readable = false ∨ f.content.pages = []))
    ∧ ((process_folder cfgStd envStd "2024-05-01" stAllBad 1).result
        = Except.error PErr.mergeEmpty
      ∧ (∀ e ∈ (process_folder cfgStd envStd "2024-05-01" stAllBad 1).trace,
          isCreateFolder e = true)
      ∧ stAllBad.files.Sublist
          (process_folder cfgStd envStd "2024-05-01" stAllBad 1).state.files) :=
  ⟨⟨by decide, by decide, by decide⟩,
   claim_C3_all_unreadable_aborts cfgStd envStd "2024-05-01" stAllBad 1 "F"
     (by decide) (by decide) (by decide)⟩

/-- C8: the batch executor invokes the pipeline once per configured folder
id in the configured order (the per-folder log lists exactly the configured
ids, errors included, so one folder's failure never halts the batch), and
the reported count of generated compilations equals the number of folders
whose invocation returned an upload dict. -/
theorem claim_C8_batch_isolation (cfg : Config) (env : Env) (d : String)
    (st : DriveState) (ids : List Nat) :
    ((batch_main cfg env d st ids).log.map Prod.fst = ids)
    ∧ (batch_main cfg env d st ids).results.length
        = ((batch_main cfg env d st ids).log.filter
            (fun e => isCompiledResult e.2)).length := by
  constructor
  · have h := batch_log_fst cfg env d ids ⟨st, [], [], []⟩
    simpa using h
  · exact batch_inv cfg env d ids ⟨st, [], [], []⟩ rfl

/-- C7: with compression enabled, the reduced file is the uploaded candidate
exactly when the size reduction succeeded and the reduced size is strictly
below 98 percent of the merged size (the source compares with the float
literal `0.98`, modelled as the exact rational 98/100); in every other case
the original merged file is uploaded unchanged. -/
theorem claim_C7_compression_threshold (cfg : Config) (env : Env) (d : String)
    (st : DriveState) (fid : Nat) (nm : String) (pages : List Nat)
    (hdry : cfg.DRY_RUN = false) (hcmp : cfg.PDF_COMPRESS = true)
    (hname : get_folder_name st fid = some nm)
    (hgate : ¬ (list_pdfs_in_folder st fid).length < cfg.MIN_PDFS)
    (hmerge : merge_local_pdfs (stage_downloads tmpDir (sortPdfs (list_pdfs_in_folder st fid))).1
        (stage_downloads tmpDir (sortPdfs (list_pdfs_in_folder st fid))).2 = Except.ok pages) :
    (∀ out, compress_pdf_gs env ⟨true, pages, env.renderSize pages⟩ cfg.PDF_QUALITY = some out →
      uploaded_files (process_folder cfg env d st fid).trace
        = [if 100 * out.size < 98 * env.renderSize pages then out
           else ⟨true, pages, env.renderSize pages⟩])
    ∧ (compress_pdf_gs env ⟨true, pages, env.renderSize pages⟩ cfg.PDF_QUALITY = none →
      uploaded_files (process_folder cfg env d st fid).trace
        = [⟨true, pages, env.renderSize pages⟩]) := by
  constructor
  · intro out hout
    rw [uploaded_files_success cfg env d st fid nm pages hdry hname hgate hmerge]
    simp [hcmp, hout]
  · intro hnone
    rw [uploaded_files_success cfg env d st fid nm pages hdry hname hgate hmerge]
    simp [hcmp, hnone]

/-- C7 witness: with a reducer shrinking the 300-byte merged file to one
byte, the reduced file is uploaded. -/
theorem claim_C7_compression_threshold_witness :
    (cfgCmp.DRY_RUN = false ∧ cfgCmp.PDF_COMPRESS = true
      ∧ get_folder_name stTwo 1 = some "F"
      ∧ ¬ (list_pdfs_in_folder stTwo 1).length < cfgCmp.MIN_PDFS
      ∧ merge_local_pdfs
          (stage_downloads tmpDir (sortPdfs (list_pdfs_in_folder stTwo 1))).1
          (stage_downloads tmpDir (sortPdfs (list_pdfs_in_folder stTwo 1))).2
          = Except.ok [1, 2])
    ∧ ((∀ out, compress_pdf_gs envCmp ⟨true, [1, 2], envCmp.renderSize [1, 2]⟩
          cfgCmp.PDF_QUALITY = some out →
        uploaded_files (process_folder cfgCmp envCmp "2024-05-01" stTwo 1).trace
          = [if 100 * out.size < 98 * envCmp.renderSize [1, 2] then out
             else ⟨true, [1, 2], envCmp.renderSize [1, 2]⟩])
      ∧ (compress_pdf_gs envCmp ⟨true, [1, 2], envCmp.renderSize [1, 2]⟩
          cfgCmp.PDF_QUALITY = none →
        uploaded_files (process_folder cfgCmp envCmp "2024-05-01" stTwo 1).trace
          = [⟨true, [1, 2], envCmp.renderSize [1, 2]⟩])) :=
  ⟨⟨by decide, by decide, by decide, by decide, by decide⟩,
   claim_C7_compression_threshold cfgCmp envCmp "2024-05-01" stTwo 1 "F" [1, 2]
     (by decide) (by decide) (by decide) (by decide) (by decide)⟩

end MergePdfs

namespace MergePdfs

theorem filter_drop_nil (l : List DriveFile) (j : Nat) (n : String)
    (hlast : ∀ g ∈ l.drop (j + 1), g.name ≠ n) :
    (l.drop (j + 1)).filter (fun g => g.name == n) = [] := by
  rw [List.filter_eq_nil_iff]
  intro g hg
  simp only [beq_iff_eq]
  exact hlast g hg

theorem getLast_filter_at (l : List DriveFile) (j : Nat) (hj : j < l.length)
    (x : DriveFile) (hx : l[j] = x)
    (hlast : ∀ g ∈ l.drop (j + 1), g.name ≠ x.name) :
    (l.filter (fun g => g.name == x.name)).getLast? = some x := by
  conv_lhs =>
    rw [show l = l.take (j + 1) ++ l.drop (j + 1) from (List.take_append_drop _ _).symm]
  rw [List.filter_append, filter_drop_nil l j _ hlast, List.append_nil]
  rw [List.take_succ, List.getElem?_eq_getElem hj, hx]
  rw [List.filter_append]
  rw [show (Option.toList (some x)).filter (fun g => g.name == x.name) = [x] from by simp]
  exact List.getLast?_concat _

end MergePdfs

namespace MergePdfs

/-- C6 counterexample: a live run over a two-PDF folder in which exactly one
discovered item is unreadable, where the merge nevertheless fails (the two
items share the display name `x.pdf`, so the unreadable later download
overwrites the readable one) and no source item is retired — refuting the
claim that every such run merges the readable remainder and trashes all
discovered items. -/
theorem claim_C6_one_unreadable_counterexample :
    ((list_pdfs_in_folder stDupBad 1).filter (fun f => !f.content.readable)).length = 1
    ∧ ¬ (list_pdfs_in_folder stDupBad 1).length < cfgStd.MIN_PDFS
    ∧ cfgStd.DRY_RUN = false
    ∧ (process_folder cfgStd envStd "2024-05-01" stDupBad 1).result
        = Except.error PErr.mergeEmpty
    ∧ Mutation.trash 2 ∉ (process_folder cfgStd envStd "2024-05-01" stDupBad 1).trace := by
  decide

/-- C6 (amended): if the discovered items have pairwise-distinct display
names, exactly one of them is unreadable, and the readable remainder
contributes at least one page, then the merge succeeds with exactly the
pages of the readable items in sorted order, the run uploads, and every
discovered item — the unreadable one included — is trashed. -/
theorem claim_C6_one_unreadable_merges_rest (cfg : Config) (env : Env) (d : String)
    (st : DriveState) (fid : Nat) (nm : String)
    (hdry : cfg.DRY_RUN = false)
    (hname : get_folder_name st fid = some nm)
    (hgate : ¬ (list_pdfs_in_folder st fid).length < cfg.MIN_PDFS)
    (hnn : ((list_pdfs_in_folder st fid).map (fun f => f.name)).Nodup)
    (hone : ((list_pdfs_in_folder st fid).filter (fun f => !f.content.readable)).length = 1)
    (hpages : ((sortPdfs (list_pdfs_in_folder st fid)).map
        (fun f => if f.content.readable then f.content.pages else [])).flatten ≠ []) :
    merge_local_pdfs (stage_downloads tmpDir (sortPdfs (list_pdfs_in_folder st fid))).1
        (stage_downloads tmpDir (sortPdfs (list_pdfs_in_folder st fid))).2
      = Except.ok (((sortPdfs (list_pdfs_in_folder st fid)).map
          (fun f => if f.content.readable then f.content.pages else [])).flatten)
    ∧ (∃ r, (process_folder cfg env d st fid).result = Except.ok (some r))
    ∧ (∀ f ∈ list_pdfs_in_folder st fid,
        Mutation.trash f.id ∈ (process_folder cfg env d st fid).trace) := by
  have hnnS : (((sortPdfs (list_pdfs_in_folder st fid)).map (fun f => f.name)).Nodup) := by
    refine (List.Perm.nodup_iff ?_).mpr hnn
    exact List.Perm.map _ (sortPdfs_perm _)
  have hcol := collect_staged_nodup tmpDir (sortPdfs (list_pdfs_in_folder st fid)) hnnS
  have hmerge : merge_local_pdfs
      (stage_downloads tmpDir (sortPdfs (list_pdfs_in_folder st fid))).1
      (stage_downloads tmpDir (sortPdfs (list_pdfs_in_folder st fid))).2
      = Except.ok (((sortPdfs (list_pdfs_in_folder st fid)).map
          (fun f => if f.content.readable then f.content.pages else [])).flatten) := by
    rw [merge_ok_of_ne_nil _ _ (by rw [hcol]; exact hpages), hcol]
  refine ⟨hmerge, ?_, ?_⟩
  · rw [process_folder_success_shape cfg env d st fid nm _ hdry hname hgate hmerge]
    exact ⟨_, rfl⟩
  · intro f hf
    rw [process_folder_success_shape cfg env d st fid nm _ hdry hname hgate hmerge]
    simp only []
    have hfs : f ∈ sortPdfs (list_pdfs_in_folder st fid) :=
      (sortPdfs_perm _).mem_iff.mpr hf
    have hid : Mutation.trash f.id
        ∈ ((sortPdfs (list_pdfs_in_folder st fid)).map (fun f => f.id)).map Mutation.trash :=
      List.mem_map_of_mem Mutation.trash (List.mem_map_of_mem (fun f => f.id) hfs)
    exact List.mem_append.mpr (Or.inr hid)

/-- C6 witness: three distinctly named PDFs, one unreadable: the other two
are merged in timestamp order and all three are trashed. -/
theorem claim_C6_one_unreadable_merges_rest_witness :
    (cfgStd.DRY_RUN = false
      ∧ get_folder_name stOneBad 1 = some "F"
      ∧ ¬ (list_pdfs_in_folder stOneBad 1).length < cfgStd.MIN_PDFS
      ∧ ((list_pdfs_in_folder stOneBad 1).map (fun f => f.name)).Nodup
      ∧ ((list_pdfs_in_folder stOneBad 1).filter (fun f => !f.content.readable)).length = 1
      ∧ ((sortPdfs (list_pdfs_in_folder stOneBad 1)).map
          (fun f => if f.content.readable then f.content.pages else [])).flatten ≠ [])
    ∧ (merge_local_pdfs (stage_downloads tmpDir (sortPdfs (list_pdfs_in_folder stOneBad 1))).1
        (stage_downloads tmpDir (sortPdfs (list_pdfs_in_folder stOneBad 1))).2
        = Except.ok (((sortPdfs (list_pdfs_in_folder stOneBad 1)).map
            (fun f => if f.content.readable then f.content.pages else [])).flatten)
      ∧ (∃ r, (process_folder cfgStd envStd "2024-05-01" stOneBad 1).result
          = Except.ok (some r))
      ∧ (∀ f ∈ list_pdfs_in_folder stOneBad 1,
          Mutation.trash f.id ∈ (process_folder cfgStd envStd "2024-05-01" stOneBad 1).trace)) :=
  ⟨⟨by decide, by decide, by decide, by decide, by decide, by decide⟩,
   claim_C6_one_unreadable_merges_rest cfgStd envStd "2024-05-01" stOneBad 1 "F"
     (by decide) (by decide) (by decide) (by decide) (by decide) (by decide)⟩

end MergePdfs

namespace MergePdfs

/-- C10: the staged download path depends only on the item's display name,
so when the items at sorted positions `i < j` share a name (and `j` is the
last position with that name), their staged paths coincide, the merge input
path list repeats that path at both positions, the staged file at that path
holds the later item's bytes (the earlier item's content is shadowed and
never merged), and a successful live run still trashes both items. -/
theorem claim_C10_name_collision_shadowing (cfg : Config) (env : Env) (d : String)
    (st : DriveState) (fid : Nat) (i j : Nat)
    (hi : i < (sortPdfs (list_pdfs_in_folder st fid)).length)
    (hj : j < (sortPdfs (list_pdfs_in_folder st fid)).length)
    (hij : i < j)
    (hnames : (sortPdfs (list_pdfs_in_folder st fid))[i].name
      = (sortPdfs (list_pdfs_in_folder st fid))[j].name)
    (hlast : ∀ g ∈ (sortPdfs (list_pdfs_in_folder st fid)).drop (j + 1),
      g.name ≠ (sortPdfs (list_pdfs_in_folder st fid))[j].name) :
    stagedPath tmpDir (sortPdfs (list_pdfs_in_folder st fid))[i].name
      = stagedPath tmpDir (sortPdfs (list_pdfs_in_folder st fid))[j].name
    ∧ (stage_downloads tmpDir (sortPdfs (list_pdfs_in_folder st fid))).2[i]?
      = (stage_downloads tmpDir (sortPdfs (list_pdfs_in_folder st fid))).2[j]?
    ∧ fsRead (stage_downloads tmpDir (sortPdfs (list_pdfs_in_folder st fid))).1
        (stagedPath tmpDir (sortPdfs (list_pdfs_in_folder st fid))[i].name)
      = some (sortPdfs (list_pdfs_in_folder st fid))[j].content
    ∧ (cfg.DRY_RUN = false →
        ∀ r, (process_folder cfg env d st fid).result = Except.ok (some r) →
        Mutation.trash (sortPdfs (list_pdfs_in_folder st fid))[i].id
            ∈ (process_folder cfg env d st fid).trace
        ∧ Mutation.trash (sortPdfs (list_pdfs_in_folder st fid))[j].id
            ∈ (process_folder cfg env d st fid).trace) := by
  refine ⟨by rw [hnames], ?_, ?_, ?_⟩
  · rw [stage_spec, List.getElem?_map, List.getElem?_map,
      List.getElem?_eq_getElem hi, List.getElem?_eq_getElem hj]
    simp [hnames]
  · rw [lookup_stage, hnames,
      getLast_filter_at (sortPdfs (list_pdfs_in_folder st fid)) j hj _ rfl hlast]
    rfl
  · intro hdry r hok
    obtain ⟨nm, pages, hname, hgate, hmerge⟩ :=
      process_folder_ok_some_inv cfg env d st fid r hok
    rw [process_folder_success_shape cfg env d st fid nm pages hdry hname hgate hmerge]
    constructor
    · refine List.mem_append.mpr (Or.inr ?_)
      exact List.mem_map_of_mem Mutation.trash
        (List.mem_map_of_mem (fun f => f.id) (List.getElem_mem hi))
    · refine List.mem_append.mpr (Or.inr ?_)
      exact List.mem_map_of_mem Mutation.trash
        (List.mem_map_of_mem (fun f => f.id) (List.getElem_mem hj))

/-- C10 witness: two readable PDFs both named `x.pdf`; the staged paths
coincide, the staged file holds the later item's bytes, and after the
successful run both items are trashed. -/
theorem claim_C10_name_collision_shadowing_witness :
    ((0 : Nat) < (sortPdfs (list_pdfs_in_folder stDupTwo 1)).length
      ∧ (1 : Nat) < (sortPdfs (list_pdfs_in_folder stDupTwo 1)).length
      ∧ (sortPdfs (list_pdfs_in_folder stDupTwo 1))[0]!.name
          = (sortPdfs (list_pdfs_in_folder stDupTwo 1))[1]!.name
      ∧ (∀ g ∈ (sortPdfs (list_pdfs_in_folder stDupTwo 1)).drop 2,
          g.name ≠ (sortPdfs (list_pdfs_in_folder stDupTwo 1))[1]!.name))
    ∧ (stagedPath tmpDir (sortPdfs (list_pdfs_in_folder stDupTwo 1))[0]!.name
        = stagedPath tmpDir (sortPdfs (list_pdfs_in_folder stDupTwo 1))[1]!.name
      ∧ fsRead (stage_downloads tmpDir (sortPdfs (list_pdfs_in_folder stDupTwo 1))).1
          (stagedPath tmpDir (sortPdfs (list_pdfs_in_folder stDupTwo 1))[0]!.name)
        = some (sortPdfs (list_pdfs_in_folder stDupTwo 1))[1]!.content
      ∧ (cfgStd.DRY_RUN = false →
          ∀ r, (process_folder cfgStd envStd "2024-05-01" stDupTwo 1).result
              = Except.ok (some r) →
          Mutation.trash (sortPdfs (list_pdfs_in_folder stDupTwo 1))[0]!.id
              ∈ (process_folder cfgStd envStd "2024-05-01" stDupTwo 1).trace
          ∧ Mutation.trash (sortPdfs (list_pdfs_in_folder stDupTwo 1))[1]!.id
              ∈ (process_folder cfgStd envStd "2024-05-01" stDupTwo 1).trace)) := by
  have h := claim_C10_name_collision_shadowing cfgStd envStd "2024-05-01" stDupTwo 1 0 1
    (by decide) (by decide) (by decide) (by decide) (by decide)
  exact ⟨⟨by decide, by decide, by decide, by decide⟩, by decide, by decide, h.2.2.2⟩

end MergePdfs

namespace MergePdfs

/-- C1 counterexample: a live run over a folder whose compiled subfolder
already holds eleven active items with the day's compiled name trashes only
the first ten matches — the eleventh (id 20) is an active matching item at
dedup time yet no trash call for it is ever issued, even though the run
uploads — refuting the claim that every matching item is retired before the
upload. -/
theorem claim_C1_counterexample :
    (⟨20, compiledName "2024-05-01", 4, pdfMime, "", 1, false, ⟨true, [9], 1⟩⟩ : DriveFile)
        ∈ dedup_matches (ensure_compiled_subfolder cfgStd stEleven 1).2.1
            (ensure_compiled_subfolder cfgStd stEleven 1).1 (compiledName "2024-05-01")
    ∧ cfgStd.DRY_RUN = false
    ∧ (process_folder cfgStd envStd "2024-05-01" stEleven 1).result
        = Except.ok (some ⟨"100", "link/100"⟩)
    ∧ Mutation.trash 20 ∉ (process_folder cfgStd envStd "2024-05-01" stEleven 1).trace := by
  decide

/-- C1 (amended): in a live run that reaches the upload, every active item
whose name equals the day's compiled name among the first ten returned by
the dedup listing (the query is issued with page size 10 and never
paginated) is trashed strictly before the upload event. -/
theorem claim_C1_dedup_trashes_before_upload (cfg : Config) (env : Env) (d : String)
    (st : DriveState) (fid : Nat) (r : UploadResult)
    (hdry : cfg.DRY_RUN = false)
    (hok : (process_folder cfg env d st fid).result = Except.ok (some r)) :
    ∃ pre evUp post,
      (process_folder cfg env d st fid).trace = pre ++ evUp :: post
      ∧ isUpload evUp = true
      ∧ ∀ f ∈ (dedup_matches (ensure_compiled_subfolder cfg st fid).2.1
          (ensure_compiled_subfolder cfg st fid).1 (compiledName d)).take 10,
          Mutation.trash f.id ∈ pre := by
  obtain ⟨nm, pages, hname, hgate, hmerge⟩ :=
    process_folder_ok_some_inv cfg env d st fid r hok
  rw [process_folder_success_shape cfg env d st fid nm pages hdry hname hgate hmerge]
  simp only []
  refine ⟨(ensure_compiled_subfolder cfg st fid).2.2
      ++ (((dedup_matches (ensure_compiled_subfolder cfg st fid).2.1
            (ensure_compiled_subfolder cfg st fid).1 (compiledName d)).take 10).map
          (fun f => f.id)).map Mutation.trash,
    Mutation.upload (ensure_compiled_subfolder cfg st fid).1 (compiledName d)
      (ensure_compiled_subfolder cfg st fid).2.1.nextId
      (if cfg.PDF_COMPRESS then
        match compress_pdf_gs env ⟨true, pages, env.renderSize pages⟩ cfg.PDF_QUALITY with
        | some comp =>
          if 100 * comp.size < 98 * env.renderSize pages then comp
          else ⟨true, pages, env.renderSize pages⟩
        | none => ⟨true, pages, env.renderSize pages⟩
      else ⟨true, pages, env.renderSize pages⟩),
    ((sortPdfs (list_pdfs_in_folder st fid)).map (fun f => f.id)).map Mutation.trash,
    ?_, rfl, ?_⟩
  · simp [List.append_assoc]
  · intro f hf
    refine List.mem_append.mpr (Or.inr ?_)
    exact List.mem_map_of_mem Mutation.trash (List.mem_map_of_mem (fun f => f.id) hf)

/-- C1 witness: at the eleven-duplicate store the first ten matches are all
trashed before the upload event. -/
theorem claim_C1_dedup_trashes_before_upload_witness :
    (cfgStd.DRY_RUN = false
      ∧ (process_folder cfgStd envStd "2024-05-01" stEleven 1).result
          = Except.ok (some ⟨"100", "link/100"⟩))
    ∧ (∃ pre evUp post,
        (process_folder cfgStd envStd "2024-05-01" stEleven 1).trace = pre ++ evUp :: post
        ∧ isUpload evUp = true
        ∧ ∀ f ∈ (dedup_matches (ensure_compiled_subfolder cfgStd stEleven 1).2.1
            (ensure_compiled_subfolder cfgStd stEleven 1).1
            (compiledName "2024-05-01")).take 10,
            Mutation.trash f.id ∈ pre) :=
  ⟨⟨by decide, by decide⟩,
   claim_C1_dedup_trashes_before_upload cfgStd envStd "2024-05-01" stEleven 1
     ⟨"100", "link/100"⟩ (by decide) (by decide)⟩

end MergePdfs

namespace MergePdfs

theorem trashIfMem_parent (ids : List Nat) (f : DriveFile) :
    (trashIfMem ids f).parent = f.parent := by
  unfold trashIfMem
  split <;> rfl

theorem trashIfMem_name (ids : List Nat) (f : DriveFile) :
    (trashIfMem ids f).name = f.name := by
  unfold trashIfMem
  split <;> rfl

theorem trashIfMem_id (ids : List Nat) (f : DriveFile) :
    (trashIfMem ids f).id = f.id := by
  unfold trashIfMem
  split <;> rfl

theorem trashIfMem_mime (ids : List Nat) (f : DriveFile) :
    (trashIfMem ids f).mimeType = f.mimeType := by
  unfold trashIfMem
  split <;> rfl

theorem trashIfMem_not_mem (ids : List Nat) (f : DriveFile) (h : f.id ∉ ids) :
    trashIfMem ids f = f := by
  unfold trashIfMem
  rw [if_neg h]

theorem trashIfMem_mem (ids : List Nat) (f : DriveFile) (h : f.id ∈ ids) :
    (trashIfMem ids f).trashed = true := by
  unfold trashIfMem
  rw [if_pos h]

theorem dedup_pred_of_trashIfMem (ids : List Nat) (x : DriveFile) (pid : Nat) (nmC : String)
    (h : ((trashIfMem ids x).parent == pid && (trashIfMem ids x).name == nmC
          && !(trashIfMem ids x).trashed) = true) :
    (x.parent == pid && x.name == nmC && !x.trashed) = true ∧ x.id ∉ ids := by
  unfold trashIfMem at h
  by_cases hm : x.id ∈ ids
  · rw [if_pos hm] at h
    simp at h
  · rw [if_neg hm] at h
    exact ⟨h, hm⟩

theorem list_pred_of_trashIfMem (ids : List Nat) (x : DriveFile) (fid : Nat)
    (h : ((trashIfMem ids x).parent == fid && (trashIfMem ids x).mimeType == pdfMime
          && !(trashIfMem ids x).trashed) = true) :
    (x.parent == fid && x.mimeType == pdfMime && !x.trashed) = true ∧ x.id ∉ ids := by
  unfold trashIfMem at h
  by_cases hm : x.id ∈ ids
  · rw [if_pos hm] at h
    simp at h
  · rw [if_neg hm] at h
    exact ⟨h, hm⟩

theorem ensure_cfid (cfg : Config) (st : DriveState) (p : Nat) :
    (∃ f0, f0 ∈ st.files ∧ f0.parent = p ∧ (ensure_compiled_subfolder cfg st p).1 = f0.id)
    ∨ (ensure_compiled_subfolder cfg st p).1 = st.nextId := by
  unfold ensure_compiled_subfolder
  cases h : (st.files.filter (fun f =>
      f.parent == p && f.mimeType == folderMime &&
      f.name == cfg.COMPILED_SUBFOLDER_NAME && !f.trashed)).head? with
  | some f =>
    left
    have hm : f ∈ st.files.filter (fun f =>
        f.parent == p && f.mimeType == folderMime &&
        f.name == cfg.COMPILED_SUBFOLDER_NAME && !f.trashed) :=
      List.mem_of_mem_head? h
    have hp := List.of_mem_filter hm
    simp only [Bool.and_eq_true, beq_iff_eq] at hp
    exact ⟨f, List.mem_of_mem_filter hm, hp.1.1.1, by simp [h]⟩
  | none =>
    right
    by_cases hdry : cfg.DRY_RUN = true <;> simp [h, hdry]

theorem ensure_nextId_ge (cfg : Config) (st : DriveState) (p : Nat) :
    st.nextId ≤ (ensure_compiled_subfolder cfg st p).2.1.nextId := by
  rcases ensure_cases cfg st p with ⟨h1, _⟩ | ⟨_, h1, _⟩ <;> rw [h1]
  exact Nat.le_succ _

end MergePdfs

namespace MergePdfs

theorem folder_record (st : DriveState) (fid : Nat) (nm : String)
    (hname : get_folder_name st fid = some nm) :
    ∃ g ∈ st.files, g.id = fid := by
  unfold get_folder_name at hname
  obtain ⟨g, hg, -⟩ := Option.map_eq_some'.mp hname
  exact ⟨g, List.mem_of_find?_eq_some hg, by simpa using List.find?_some hg⟩

theorem folder_id_lt (st : DriveState) (fid : Nat) (nm : String) (hwf : st.wf)
    (hname : get_folder_name st fid = some nm) : fid < st.nextId := by
  obtain ⟨g, hm, hgid⟩ := folder_record st fid nm hname
  have h := (hwf.2 g hm).1
  omega

theorem dedup_matches_eq (st : DriveState) (c : Nat) (n : String) :
    dedup_matches st c n
      = st.files.filter (fun f => f.parent == c && f.name == n && !f.trashed) := rfl

theorem matches1_of_shape (stE : DriveState) (cfid : Nat) (nmC : String)
    (srcIds : List Nat) (upRec : DriveFile) (n2 : Nat)
    (hup_par : upRec.parent = cfid) (hup_nm : upRec.name = nmC)
    (hup_tr : upRec.trashed = false) (hup_fresh : upRec.id ∉ srcIds) :
    dedup_matches
      ⟨(stE.files.map (trashIfMem ((dedup_matches stE cfid nmC).map (fun f => f.id)))
          ++ [upRec]).map (trashIfMem srcIds), n2⟩ cfid nmC
      = [upRec] := by
  rw [dedup_matches_eq]
  simp only
  rw [List.map_append, List.filter_append]
  have h2 : (List.map (trashIfMem srcIds) [upRec]).filter
      (fun f => f.parent == cfid && f.name == nmC && !f.trashed) = [upRec] := by
    rw [List.map_cons, List.map_nil, trashIfMem_not_mem _ _ hup_fresh]
    rw [List.filter_cons]
    rw [if_pos (by simp [hup_par, hup_nm, hup_tr])]
    rfl
  have h1 : ((stE.files.map (trashIfMem ((dedup_matches stE cfid nmC).map
        (fun f => f.id)))).map (trashIfMem srcIds)).filter
      (fun f => f.parent == cfid && f.name == nmC && !f.trashed) = [] := by
    rw [List.filter_eq_nil_iff]
    intro x hx
    obtain ⟨y, hy, rfl⟩ := List.mem_map.mp hx
    obtain ⟨f, hf, rfl⟩ := List.mem_map.mp hy
    intro hpx
    obtain ⟨hp1, _⟩ := dedup_pred_of_trashIfMem srcIds _ cfid nmC hpx
    obtain ⟨hp0, hnotded⟩ := dedup_pred_of_trashIfMem _ f cfid nmC hp1
    exact hnotded (List.mem_map_of_mem (fun f => f.id) (List.mem_filter.mpr ⟨hf, hp0⟩))
  rw [h1, h2]
  rfl

theorem list2_of_shape (stE : DriveState) (fid cfid : Nat)
    (dedupIds srcIds : List Nat) (upRec : DriveFile) (n2 : Nat)
    (hup_par : upRec.parent = cfid) (hne : cfid ≠ fid)
    (hsrcE : ∀ f ∈ stE.files,
      (f.parent == fid && f.mimeType == pdfMime && !f.trashed) = true → f.id ∈ srcIds) :
    list_pdfs_in_folder
      ⟨(stE.files.map (trashIfMem dedupIds) ++ [upRec]).map (trashIfMem srcIds), n2⟩ fid
      = [] := by
  unfold list_pdfs_in_folder
  simp only
  rw [List.map_append, List.filter_append]
  have h2 : (List.map (trashIfMem srcIds) [upRec]).filter
      (fun f => f.parent == fid && f.mimeType == pdfMime && !f.trashed) = [] := by
    rw [List.map_cons, List.map_nil, List.filter_cons]
    rw [if_neg (by simp [trashIfMem_parent, hup_par, hne])]
    rfl
  have h1 : ((stE.files.map (trashIfMem dedupIds)).map (trashIfMem srcIds)).filter
      (fun f => f.parent == fid && f.mimeType == pdfMime && !f.trashed) = [] := by
    rw [List.filter_eq_nil_iff]
    intro x hx
    obtain ⟨y, hy, rfl⟩ := List.mem_map.mp hx
    obtain ⟨f, hf, rfl⟩ := List.mem_map.mp hy
    intro hqx
    obtain ⟨hq1, hnotsrc⟩ := list_pred_of_trashIfMem srcIds _ fid hqx
    rw [trashIfMem_id] at hnotsrc
    obtain ⟨hq0, _⟩ := list_pred_of_trashIfMem dedupIds f fid hq1
    exact hnotsrc (hsrcE f hf hq0)
  rw [h1, h2]
  rfl

end MergePdfs

namespace MergePdfs

/-- C2 (amended): for a live run that uploads, over a well-formed store
whose compiled subfolder holds at most ten active items with the day's
compiled name, running the pipeline a second time on the same folder and
date leaves exactly one active item with that compiled name in the compiled
subfolder: the first run retires every pre-existing same-day duplicate and
uploads one output, and the second run finds no remaining source PDFs and
uploads nothing further. -/
theorem claim_C2_run_twice_single_active (cfg : Config) (env : Env) (d : String)
    (st : DriveState) (fid : Nat) (r : UploadResult)
    (hwf : st.wf)
    (hdry : cfg.DRY_RUN = false)
    (hok : (process_folder cfg env d st fid).result = Except.ok (some r))
    (hfew : (dedup_matches (ensure_compiled_subfolder cfg st fid).2.1
        (ensure_compiled_subfolder cfg st fid).1 (compiledName d)).length ≤ 10) :
    countCompiledActive
      (process_folder cfg env d (process_folder cfg env d st fid).state fid).state
      (ensure_compiled_subfolder cfg st fid).1 (compiledName d) = 1 := by
  obtain ⟨nm, pages, hname, hgate, hmerge⟩ :=
    process_folder_ok_some_inv cfg env d st fid r hok
  have hfid : fid < st.nextId := folder_id_lt st fid nm hwf hname
  have htake : (dedup_matches (ensure_compiled_subfolder cfg st fid).2.1
      (ensure_compiled_subfolder cfg st fid).1 (compiledName d)).take 10
      = dedup_matches (ensure_compiled_subfolder cfg st fid).2.1
        (ensure_compiled_subfolder cfg st fid).1 (compiledName d) :=
    List.take_of_length_le hfew
  have hshape : ∃ ff : LocalFile,
      (process_folder cfg env d st fid).state
        = ⟨((ensure_compiled_subfolder cfg st fid).2.1.files.map
              (trashIfMem (((dedup_matches (ensure_compiled_subfolder cfg st fid).2.1
                  (ensure_compiled_subfolder cfg st fid).1 (compiledName d)).take 10).map
                (fun f => f.id)))
            ++ [(⟨(ensure_compiled_subfolder cfg st fid).2.1.nextId, compiledName d,
                (ensure_compiled_subfolder cfg st fid).1, pdfMime, "", ff.size, false,
                ff⟩ : DriveFile)]).map
            (trashIfMem ((sortPdfs (list_pdfs_in_folder st fid)).map (fun f => f.id))),
          (ensure_compiled_subfolder cfg st fid).2.1.nextId + 1⟩ := by
    refine ⟨(if cfg.PDF_COMPRESS then
        match compress_pdf_gs env ⟨true, pages, env.renderSize pages⟩ cfg.PDF_QUALITY with
        | some comp =>
          if 100 * comp.size < 98 * env.renderSize pages then comp
          else ⟨true, pages, env.renderSize pages⟩
        | none => ⟨true, pages, env.renderSize pages⟩
      else (⟨true, pages, env.renderSize pages⟩ : LocalFile)), ?_⟩
    rw [process_folder_success_shape cfg env d st fid nm pages hdry hname hgate hmerge]
  obtain ⟨ff, hst1⟩ := hshape
  rw [htake] at hst1
  -- facts about the post-ensure state
  have hcfid_ne : (ensure_compiled_subfolder cfg st fid).1 ≠ fid := by
    rcases ensure_cfid cfg st fid with ⟨f0, hf0m, hf0p, hf0id⟩ | hnid
    · rw [hf0id]
      have h3 := (hwf.2 f0 hf0m).2.2
      rw [hf0p] at h3
      exact h3
    · rw [hnid]
      omega
  have hsrc_lt : ∀ i ∈ (sortPdfs (list_pdfs_in_folder st fid)).map (fun f => f.id),
      i < st.nextId := by
    intro i hi
    obtain ⟨f, hf, rfl⟩ := List.mem_map.mp hi
    have hf2 : f ∈ list_pdfs_in_folder st fid := (sortPdfs_perm _).mem_iff.mp hf
    exact (hwf.2 f (List.mem_of_mem_filter hf2)).1
  have hup_fresh : (ensure_compiled_subfolder cfg st fid).2.1.nextId
      ∉ (sortPdfs (list_pdfs_in_folder st fid)).map (fun f => f.id) := by
    intro hc
    have h1 := hsrc_lt _ hc
    have h2 := ensure_nextId_ge cfg st fid
    omega
  have hsrcE : ∀ f ∈ (ensure_compiled_subfolder cfg st fid).2.1.files,
      (f.parent == fid && f.mimeType == pdfMime && !f.trashed) = true →
      f.id ∈ (sortPdfs (list_pdfs_in_folder st fid)).map (fun f => f.id) := by
    intro f hf hq
    have hmem : f ∈ st.files := by
      rcases ensure_cases cfg st fid with ⟨h1, _⟩ | ⟨_, h1, _⟩
      · rw [h1] at hf
        exact hf
      · rw [h1] at hf
        simp only at hf
        rcases List.mem_append.mp hf with hl | hr
        · exact hl
        · rw [List.mem_singleton] at hr
          subst hr
          exact absurd hq (by simp [pdfMime, folderMime])
    have hlst : f ∈ list_pdfs_in_folder st fid := List.mem_filter.mpr ⟨hmem, hq⟩
    exact List.mem_map_of_mem (fun f => f.id) ((sortPdfs_perm _).mem_iff.mpr hlst)
  -- the single active compiled item after run 1
  have hmatches1 : dedup_matches (process_folder cfg env d st fid).state
      (ensure_compiled_subfolder cfg st fid).1 (compiledName d)
      = [⟨(ensure_compiled_subfolder cfg st fid).2.1.nextId, compiledName d,
          (ensure_compiled_subfolder cfg st fid).1, pdfMime, "", ff.size, false, ff⟩] := by
    rw [hst1]
    exact matches1_of_shape (ensure_compiled_subfolder cfg st fid).2.1
      (ensure_compiled_subfolder cfg st fid).1 (compiledName d)
      ((sortPdfs (list_pdfs_in_folder st fid)).map (fun f => f.id))
      ⟨(ensure_compiled_subfolder cfg st fid).2.1.nextId, compiledName d,
        (ensure_compiled_subfolder cfg st fid).1, pdfMime, "", ff.size, false, ff⟩
      ((ensure_compiled_subfolder cfg st fid).2.1.nextId + 1)
      rfl rfl rfl hup_fresh
  -- the second run discovers nothing
  have hlist2 : list_pdfs_in_folder (process_folder cfg env d st fid).state fid = [] := by
    rw [hst1]
    exact list2_of_shape (ensure_compiled_subfolder cfg st fid).2.1 fid
      (ensure_compiled_subfolder cfg st fid).1
      ((dedup_matches (ensure_compiled_subfolder cfg st fid).2.1
        (ensure_compiled_subfolder cfg st fid).1 (compiledName d)).map (fun f => f.id))
      ((sortPdfs (list_pdfs_in_folder st fid)).map (fun f => f.id))
      ⟨(ensure_compiled_subfolder cfg st fid).2.1.nextId, compiledName d,
        (ensure_compiled_subfolder cfg st fid).1, pdfMime, "", ff.size, false, ff⟩
      ((ensure_compiled_subfolder cfg st fid).2.1.nextId + 1)
      rfl hcfid_ne hsrcE
  -- the folder record survives, so the second lookup succeeds
  have hname2 : ∃ nm2,
      get_folder_name (process_folder cfg env d st fid).state fid = some nm2 := by
    obtain ⟨g, hgmem, hgid⟩ := folder_record st fid nm hname
    have hgE : g ∈ (ensure_compiled_subfolder cfg st fid).2.1.files := by
      rcases ensure_cases cfg st fid with ⟨h1, _⟩ | ⟨_, h1, _⟩
      · rw [h1]
        exact hgmem
      · rw [h1]
        exact List.mem_append_left _ hgmem
    have himg : trashIfMem ((sortPdfs (list_pdfs_in_folder st fid)).map (fun f => f.id))
        (trashIfMem ((dedup_matches (ensure_compiled_subfolder cfg st fid).2.1
          (ensure_compiled_subfolder cfg st fid).1 (compiledName d)).map (fun f => f.id)) g)
        ∈ (process_folder cfg env d st fid).state.files := by
      rw [hst1]
      exact List.mem_map_of_mem _ (List.mem_append_left _ (List.mem_map_of_mem _ hgE))
    have hsome : ((process_folder cfg env d st fid).state.files.find?
        (fun f => f.id == fid)).isSome := by
      rw [List.find?_isSome]
      refine ⟨_, himg, ?_⟩
      rw [beq_iff_eq, trashIfMem_id, trashIfMem_id]
      exact hgid
    obtain ⟨y, hy⟩ := Option.isSome_iff_exists.mp hsome
    refine ⟨y.name, ?_⟩
    unfold get_folder_name
    rw [hy]
    rfl
  obtain ⟨nm2, hname2⟩ := hname2
  by_cases hg2 : (list_pdfs_in_folder (process_folder cfg env d st fid).state fid).length
      < cfg.MIN_PDFS
  · rw [process_folder_skip cfg env d _ fid nm2 hname2 hg2]
    show countCompiledActive (process_folder cfg env d st fid).state _ _ = 1
    unfold countCompiledActive
    rw [hmatches1]
    rfl
  · have hm2 : merge_local_pdfs
        (stage_downloads tmpDir (sortPdfs
          (list_pdfs_in_folder (process_folder cfg env d st fid).state fid))).1
        (stage_downloads tmpDir (sortPdfs
          (list_pdfs_in_folder (process_folder cfg env d st fid).state fid))).2
        = Except.error PErr.mergeEmpty := by
      rw [hlist2]
      rfl
    rw [process_folder_mergeError cfg env d _ fid nm2 PErr.mergeEmpty hname2 hg2 hm2]
    rcases ensure_cases cfg (process_folder cfg env d st fid).state fid with
      ⟨h1, _⟩ | ⟨_, h1, _⟩
    · rw [h1]
      unfold countCompiledActive
      rw [hmatches1]
      rfl
    · rw [h1]
      unfold countCompiledActive
      rw [dedup_matches_eq]
      simp only
      rw [List.filter_append]
      rw [show [(⟨(process_folder cfg env d st fid).state.nextId,
          cfg.COMPILED_SUBFOLDER_NAME, fid, folderMime, "", 0, false,
          default⟩ : DriveFile)].filter
          (fun f => f.parent == (ensure_compiled_subfolder cfg st fid).1
            && f.name == compiledName d && !f.trashed) = [] from by
        rw [List.filter_cons]
        rw [if_neg (by
          simp only [Bool.and_eq_true, beq_iff_eq]
          intro hcon
          exact hcfid_ne hcon.1.1.symm)]
        rfl]
      rw [List.append_nil, ← dedup_matches_eq, hmatches1]
      rfl

end MergePdfs

namespace MergePdfs

/-- C2 counterexample: starting from a store whose compiled subfolder holds
eleven active items with the day's compiled name, running the pipeline twice
on the same folder and date (live mode, both source PDFs readable, the first
run uploading) leaves two active items with that name — the first run's
dedup pass trashes only the first ten matches — refuting the claim that two
runs always leave exactly one. -/
theorem claim_C2_counterexample :
    cfgStd.DRY_RUN = false
    ∧ (process_folder cfgStd envStd "2024-05-01" stEleven 1).result
        = Except.ok (some ⟨"100", "link/100"⟩)
    ∧ countCompiledActive
        (process_folder cfgStd envStd "2024-05-01"
          (process_folder cfgStd envStd "2024-05-01" stEleven 1).state 1).state
        (ensure_compiled_subfolder cfgStd stEleven 1).1 (compiledName "2024-05-01") = 2 := by
  decide

/-- C2 witness: a fresh two-PDF folder run twice on the same date ends with
exactly one active compiled item for that date. -/
theorem claim_C2_run_twice_single_active_witness :
    (stTwo.wf ∧ cfgStd.DRY_RUN = false
      ∧ (process_folder cfgStd envStd "2024-05-01" stTwo 1).result
          = Except.ok (some ⟨"11", "link/11"⟩)
      ∧ (dedup_matches (ensure_compiled_subfolder cfgStd stTwo 1).2.1
          (ensure_compiled_subfolder cfgStd stTwo 1).1
          (compiledName "2024-05-01")).length ≤ 10)
    ∧ countCompiledActive
        (process_folder cfgStd envStd "2024-05-01"
          (process_folder cfgStd envStd "2024-05-01" stTwo 1).state 1).state
        (ensure_compiled_subfolder cfgStd stTwo 1).1 (compiledName "2024-05-01") = 1 :=
  ⟨⟨by decide, by decide, by decide, by decide⟩,
   claim_C2_run_twice_single_active cfgStd envStd "2024-05-01" stTwo 1
     ⟨"11", "link/11"⟩ (by decide) (by decide) (by decide) (by decide)⟩

end MergePdfs
